import Mathlib

/-
Verification development for the imposter-game server (ImposterGame/app.js).

The server keeps, per room code, a mutable Room object that is mutated by
socket event handlers.  This file gives a shallow embedding of that state
and of the handlers relevant to the specification claims: each handler is
translated to a pure function from the pre-state (plus the event payload
and, where the source calls Math.random, an explicit list of random draws)
to the post-state together with the outcome it would broadcast.

Modelling conventions, fixed once here:
  * JavaScript plain objects used as string-keyed maps (room.roles,
    room.votes) are modelled as association lists.  room.votes is iterated
    by the source (Object.values / Object.keys) so its list keeps the JS
    insertion order and unique keys, maintained by setVote exactly as a JS
    object would.  room.roles is only ever read by key lookup or deleted
    by key, never iterated, so assignments are modelled by consing the new
    binding in front (first match wins on lookup, which is the same
    observable behaviour as overwriting the key in place).
  * Falsy string checks (`!data.playerId`) become comparisons with "".
    Absent values (undefined / null) become Option.none.
  * `Math.floor(Math.random() * n)` becomes an explicit parameter reduced
    mod n, one parameter per call site (word index, and one list of draws
    per Fisher–Yates shuffle).
  * The guess timer handle room.guessTimeout is modelled as a Bool
    recording whether a timer is armed; real time, lastActivity
    bookkeeping and socket emissions are outside the modelled state.
-/

inductive Phase where
  | lobby | discussion | voting | results | ended
deriving Repr, DecidableEq

inductive Role where
  | impostor | crew
deriving Repr, DecidableEq

inductive Mode where
  | preset | custom
deriving Repr, DecidableEq

inductive Winner where
  | impostor | crew
deriving Repr, DecidableEq

structure Player where
  id : String
  name : String
  isHost : Bool
  eliminated : Bool
deriving Repr, DecidableEq

structure Room where
  hostId : String
  started : Bool
  phase : Phase
  mode : Mode
  impostorCount : Nat
  players : List Player
  roles : List (String × Role)
  selectedCategory : Option String
  customWords : List String
  secretWord : Option String
  votes : List (String × String)
  pendingImpostorGuess : Bool
  eliminatedImpostorId : Option String
  guessTimeout : Bool
  turnOrder : List (String × String)
deriving Repr, DecidableEq

/-- The server-side category table (app.js `categories`). -/
def categories : List (String × List String) := [
  ("Animals", ["Dog", "Cat", "Elephant", "Giraffe", "Penguin", "Tiger", "Dolphin", "Eagle", "Lion", "Bear", "Wolf", "Fox", "Rabbit", "Deer", "Horse", "Cow", "Pig", "Sheep", "Goat", "Chicken", "Duck", "Turkey", "Owl", "Hawk", "Parrot", "Flamingo", "Peacock", "Swan", "Pelican", "Seagull", "Crow", "Sparrow", "Robin", "Cardinal", "Whale", "Shark", "Octopus", "Jellyfish", "Starfish", "Crab", "Lobster", "Shrimp", "Turtle", "Crocodile", "Alligator", "Snake", "Lizard", "Frog", "Toad", "Salamander", "Butterfly", "Bee", "Ant", "Spider", "Scorpion", "Beetle", "Dragonfly", "Grasshopper", "Monkey", "Gorilla", "Chimpanzee", "Orangutan", "Koala", "Kangaroo", "Platypus", "Panda", "Polar Bear", "Grizzly Bear", "Moose", "Elk", "Bison", "Buffalo", "Zebra", "Hippopotamus", "Rhinoceros", "Camel", "Llama", "Alpaca", "Sloth", "Armadillo", "Porcupine", "Hedgehog", "Raccoon", "Skunk", "Badger", "Otter", "Beaver", "Squirrel", "Chipmunk", "Hamster", "Guinea Pig", "Ferret", "Mole"]),
  ("Foods", ["Pizza", "Sushi", "Burger", "Taco", "Pasta", "Ice Cream", "Steak", "Salad", "Sandwich", "Hotdog", "Burrito", "Nachos", "Quesadilla", "Enchilada", "Fajita", "Ramen", "Pho", "Curry", "Fried Rice", "Noodles", "Dumplings", "Spring Roll", "Pancakes", "Waffles", "French Toast", "Omelette", "Bacon", "Sausage", "Cereal", "Soup", "Chili", "Stew", "Lasagna", "Ravioli", "Gnocchi", "Risotto", "Paella", "Fish and Chips", "Lobster Roll", "Crab Cakes", "Shrimp Scampi", "Calamari", "Fried Chicken", "Roast Chicken", "Turkey", "Ribs", "Brisket", "Pulled Pork", "Meatloaf", "Meatballs", "Gyro", "Kebab", "Shawarma", "Falafel", "Hummus", "Guacamole", "Salsa", "Chips", "Popcorn", "Pretzel", "Crackers", "Cheese", "Bread", "Bagel", "Croissant", "Muffin", "Donut", "Cookie", "Brownie", "Cake", "Pie", "Cheesecake", "Pudding", "Jello", "Yogurt", "Smoothie", "Milkshake", "Apple", "Banana", "Orange", "Grape", "Strawberry", "Blueberry", "Watermelon", "Pineapple", "Mango", "Peach", "Pear", "Cherry", "Lemon", "Lime", "Coconut"]),
  ("Countries", ["France", "Japan", "Brazil", "Australia", "Canada", "Egypt", "Germany", "Mexico", "Italy", "Spain", "Portugal", "Greece", "Turkey", "Russia", "China", "India", "Thailand", "Vietnam", "Indonesia", "Philippines", "South Korea", "Singapore", "United Kingdom", "Ireland", "Scotland", "Netherlands", "Belgium", "Switzerland", "Austria", "Poland", "Sweden", "Norway", "Denmark", "Finland", "Iceland", "Argentina", "Chile", "Peru", "Colombia", "Venezuela", "Ecuador", "Bolivia", "South Africa", "Kenya", "Nigeria", "Morocco", "Tanzania", "Ethiopia", "Ghana", "New Zealand", "Fiji", "Hawaii", "Jamaica", "Cuba", "Dominican Republic", "Saudi Arabia", "Israel", "Jordan", "Lebanon", "Iran", "Iraq", "Pakistan", "Bangladesh", "Nepal", "Sri Lanka", "Malaysia", "Myanmar", "Cambodia", "Laos", "Mongolia", "Kazakhstan", "Uzbekistan", "Ukraine", "Czech Republic", "Hungary", "Romania", "Bulgaria", "Croatia", "Serbia", "Slovenia", "Slovakia", "Lithuania"]),
  ("Sports", ["Soccer", "Basketball", "Tennis", "Swimming", "Golf", "Hockey", "Baseball", "Boxing", "Football", "Rugby", "Cricket", "Volleyball", "Badminton", "Table Tennis", "Squash", "Wrestling", "Judo", "Karate", "Taekwondo", "Fencing", "Archery", "Shooting", "Gymnastics", "Diving", "Surfing", "Skateboarding", "Snowboarding", "Skiing", "Ice Skating", "Figure Skating", "Bobsled", "Curling", "Luge", "Biathlon", "Track and Field", "Marathon", "Sprinting", "Long Jump", "High Jump", "Pole Vault", "Discus", "Javelin", "Shot Put", "Hammer Throw", "Decathlon", "Triathlon", "Cycling", "Mountain Biking", "BMX", "Motocross", "NASCAR", "Formula One", "Horse Racing", "Polo", "Rodeo", "Bull Riding", "Fishing", "Hunting", "Rock Climbing", "Bouldering", "Hiking", "Kayaking", "Canoeing", "Rowing", "Water Polo", "Synchronized Swimming", "Sailing", "Windsurfing", "Kiteboarding", "Lacrosse", "Field Hockey", "Handball", "Racquetball", "Pickleball", "Darts", "Bowling", "Billiards", "Snooker", "Chess", "Poker", "Esports", "Paintball"]),
  ("Movies", ["Titanic", "Avatar", "Inception", "Frozen", "Jaws", "Rocky", "Gladiator", "Shrek", "Star Wars", "Harry Potter", "Lord of the Rings", "The Matrix", "Jurassic Park", "The Godfather", "Pulp Fiction", "Forrest Gump", "The Shawshank Redemption", "Fight Club", "The Dark Knight", "Interstellar", "The Prestige", "Memento", "Toy Story", "Finding Nemo", "The Lion King", "Aladdin", "Beauty and the Beast", "Mulan", "Moana", "Coco", "Up", "Wall-E", "Ratatouille", "The Incredibles", "Spider-Man", "Iron Man", "Captain America", "Thor", "Black Panther", "Avengers", "Guardians of the Galaxy", "Deadpool", "X-Men", "Wolverine", "Hulk", "Ant-Man", "Batman", "Superman", "Wonder Woman", "Aquaman", "Flash", "Justice League", "James Bond", "Mission Impossible", "Fast and Furious", "John Wick", "Die Hard", "Terminator", "Alien", "Predator", "Robocop", "Total Recall", "Blade Runner", "Back to the Future", "E.T.", "Close Encounters", "Indiana Jones", "Ghostbusters", "Grease", "Dirty Dancing", "Footloose", "Top Gun", "Ferris Bueller", "Breakfast Club", "Home Alone", "Mrs Doubtfire", "Ace Ventura", "The Mask", "Dumb and Dumber", "Scary Movie", "Scream", "Halloween", "Friday the 13th", "Nightmare on Elm Street"]),
  ("Objects", ["Chair", "Table", "Lamp", "Sofa", "Bed", "Desk", "Bookshelf", "Mirror", "Clock", "Watch", "Phone", "Laptop", "Keyboard", "Mouse", "Monitor", "Television", "Remote Control", "Camera", "Headphones", "Speaker", "Microphone", "Radio", "Refrigerator", "Microwave", "Oven", "Toaster", "Blender", "Coffee Maker", "Dishwasher", "Washing Machine", "Dryer", "Vacuum Cleaner", "Iron", "Fan", "Air Conditioner", "Heater", "Thermostat", "Smoke Detector", "Fire Extinguisher", "Umbrella", "Backpack", "Suitcase", "Wallet", "Purse", "Briefcase", "Luggage", "Glasses", "Sunglasses", "Contact Lens", "Binoculars", "Telescope", "Microscope", "Hammer", "Screwdriver", "Wrench", "Pliers", "Drill", "Saw", "Tape Measure", "Flashlight", "Battery", "Extension Cord", "Light Bulb", "Candle", "Lighter", "Key", "Lock", "Doorbell", "Doorknob", "Window", "Curtain", "Blinds", "Pillow", "Blanket", "Mattress", "Sheet", "Towel", "Rug", "Carpet", "Vase", "Plant Pot", "Picture Frame", "Painting", "Sculpture", "Trophy", "Pen", "Pencil", "Marker", "Eraser", "Ruler", "Scissors", "Stapler", "Envelope", "Stamp", "Calculator", "Calendar", "Notebook", "Folder", "Binder", "Toothbrush", "Toothpaste", "Soap", "Shampoo", "Razor", "Comb", "Hairbrush", "Bottle", "Cup", "Mug", "Glass", "Plate", "Bowl", "Fork", "Knife", "Spoon"])
]

/-- app.js constants. -/
def MAX_PLAYERS_PER_ROOM : Nat := 20
def MIN_CUSTOM_WORDS : Nat := 5
def MAX_WORD_LENGTH : Nat := 30
def MIN_IMPOSTORS : Nat := 1
def MAX_IMPOSTORS : Nat := 3
def MAX_NAME_LENGTH : Nat := 20
def MIN_NAME_LENGTH : Nat := 1

/-- JS String.prototype.toLowerCase, modelled characterwise on the
underlying character list (the secret words and guesses are plain text). -/
def jsToLower (s : String) : String := ⟨s.data.map Char.toLower⟩

/-- JS String.prototype.toUpperCase, modelled characterwise. -/
def jsToUpper (s : String) : String := ⟨s.data.map Char.toUpper⟩

/-- JS String.prototype.trim: strip leading and trailing whitespace. -/
def jsTrim (s : String) : String :=
  ⟨((s.data.dropWhile Char.isWhitespace).reverse.dropWhile Char.isWhitespace).reverse⟩

/-- app.js isValidName: trim, length between 1 and 20, and the regex
^[a-zA-Z0-9 _-]+$ on the trimmed name (the `!name` falsy test is the
empty-string case of the length bound). -/
def isValidName (name : String) : Bool :=
  let t := jsTrim name
  decide (MIN_NAME_LENGTH ≤ t.length) && decide (t.length ≤ MAX_NAME_LENGTH) &&
    t.toList.all (fun c => c.isAlphanum || c == ' ' || c == '_' || c == '-')

/-- app.js isValidRoomCode: the regex ^[A-Z]{4}$ applied to code.toUpperCase(). -/
def isValidRoomCode (code : String) : Bool :=
  let u := jsToUpper code
  decide (u.length = 4) && u.toList.all (fun c => 'A' ≤ c && c ≤ 'Z')

/-- app.js isValidWord (custom words): trimmed, nonempty, at most 30 chars,
regex ^[a-zA-Z0-9 ]+$. -/
def isValidWord (word : String) : Bool :=
  let t := jsTrim word
  decide (0 < t.length) && decide (t.length ≤ MAX_WORD_LENGTH) &&
    t.toList.all (fun c => c.isAlphanum || c == ' ')

/-- JS `a || b` for the string-or-absent payload fields of requestPlayAgain:
an absent (undefined) or empty-string value falls back to b. -/
def jsOr (a b : Option String) : Option String :=
  match a with
  | some s => if s = "" then b else some s
  | none => b

/-- Swap of two positions of a list (the destructuring swap inside
shuffleArray).  Out-of-range indices leave the list unchanged; all call
sites stay in range. -/
def listSwap (l : List α) (i j : Nat) : List α :=
  match l.get? i, l.get? j with
  | some a, some b => (l.set i b).set j a
  | _, _ => l

/-- The loop of app.js shuffleArray: for i from n-1 down to 1, draw
j ∈ [0, i] and swap positions i and j.  Each draw is supplied as a Nat
reduced mod (i+1), one per iteration; a too-short draw list stops early
(a real Math.random stream is unbounded). -/
def shuffleAux : List α → Nat → List Nat → List α
  | arr, 0, _ => arr
  | arr, _ + 1, [] => arr
  | arr, i + 1, j :: js => shuffleAux (listSwap arr (i + 1) (j % (i + 2))) i js

/-- app.js shuffleArray (Fisher–Yates on a copy), with the stream of random
draws made explicit. -/
def shuffleArray (arr : List α) (js : List Nat) : List α :=
  shuffleAux arr (arr.length - 1) js

/-- Non-eliminated players of a room (the alivePlayers filter used
throughout app.js). -/
def alivePlayers (r : Room) : List Player :=
  r.players.filter (fun p => !p.eliminated)

/-- Number of ballots in the votes map whose target is pid.  This is the
final value of voteCounts[pid] after the Object.values(room.votes)
increment loop of tallyVotes, for a pid that was initialised (an alive
player's id): each ballot with value pid adds one, every other ballot
leaves it unchanged. -/
def countBallots (votes : List (String × String)) (pid : String) : Nat :=
  (votes.filter (fun v => v.2 == pid)).length

/-- First-occurrence deduplication, the key semantics of the JS object
voteCounts when initialised from a player list (a duplicate id would hit
the same key).  Reachable rooms have distinct player ids, in which case
this is the identity. -/
def dedupFirstAux (seen : List String) : List String → List String
  | [] => []
  | x :: xs =>
    if seen.contains x then dedupFirstAux seen xs
    else x :: dedupFirstAux (x :: seen) xs

/-- The keys of the voteCounts object of tallyVotes, in insertion order:
the alive players' ids, first occurrence kept. -/
def aliveIds (r : Room) : List String :=
  dedupFirstAux [] ((alivePlayers r).map (fun p => p.id))

/-- Object.entries(voteCounts) of tallyVotes: one (id, count) pair per
alive player id. -/
def voteEntries (r : Room) : List (String × Nat) :=
  (aliveIds r).map (fun pid => (pid, countBallots r.votes pid))

/-- One iteration of the maxVotes / eliminated forEach of tallyVotes. -/
def tallyStep (acc : Nat × List String) (e : String × Nat) : Nat × List String :=
  if acc.1 < e.2 then (e.2, [e.1])
  else if e.2 = acc.1 ∧ 0 < e.2 then (acc.1, acc.2 ++ [e.1])
  else acc

/-- The full maxVotes / eliminated loop of tallyVotes, starting from
maxVotes = 0, eliminated = []. -/
def tallyFold (entries : List (String × Nat)) : Nat × List String :=
  entries.foldl tallyStep (0, [])

/-- Setting the eliminated flag of the player found by
room.players.find(p => p.id === playerId): the first player with that id
is flagged, the rest are untouched. -/
def setEliminatedFirst : List Player → String → List Player
  | [], _ => []
  | p :: ps, pid =>
    if p.id == pid then { p with eliminated := true } :: ps
    else p :: setEliminatedFirst ps pid

/-- The role lookup room.roles[pid] (Option-valued: undefined becomes
none). -/
def lookupRole (roles : List (String × Role)) (pid : String) : Option Role :=
  List.lookup pid roles

/-- The eliminatedPlayer record broadcast by tallyVotes. -/
structure EliminatedInfo where
  id : String
  name : String
  role : Option Role
deriving Repr, DecidableEq

/-- The voteResults payload of tallyVotes. -/
structure VoteResults where
  votes : List (String × Nat)
  eliminated : Option EliminatedInfo
  tie : Bool
  noVotes : Bool
deriving Repr, DecidableEq

/-- The alive players whose role is impostor (the aliveImpostors filter
of app.js). -/
def aliveImpostorsOf (r : Room) : List Player :=
  (alivePlayers r).filter (fun p => lookupRole r.roles p.id == some Role.impostor)

/-- The alive players whose role is crew (the aliveCrew filter of
app.js). -/
def aliveCrewOf (r : Room) : List Player :=
  (alivePlayers r).filter (fun p => lookupRole r.roles p.id == some Role.crew)

/-- app.js checkWinConditions: no-op while a guess is pending; among the
alive players, zero impostors means crew wins, impostors at or above the
crew count means impostors win, otherwise the room is unchanged.  A win
sets phase "ended"; the winner is the gameEnded payload. -/
def checkWinConditions (r : Room) : Room × Option Winner :=
  if r.pendingImpostorGuess then (r, none)
  else if (aliveImpostorsOf r).length = 0 then
    ({ r with phase := Phase.ended }, some Winner.crew)
  else if (aliveCrewOf r).length ≤ (aliveImpostorsOf r).length then
    ({ r with phase := Phase.ended }, some Winner.impostor)
  else (r, none)

/-- app.js endGameAfterGuess: clear the timer and the pending-guess state,
set phase "ended", and report the winner of the gameEnded broadcast. -/
def endGameAfterGuess (r : Room) (guessCorrect : Bool) : Room × Winner :=
  let r1 := { r with
    guessTimeout := false,
    pendingImpostorGuess := false,
    eliminatedImpostorId := none,
    phase := Phase.ended }
  (r1, if guessCorrect then Winner.impostor else Winner.crew)

/-- The maxVotes / eliminated result of the tallyVotes loop over a
room's vote-count entries. -/
def tallyElimList (r : Room) : List String := (tallyFold (voteEntries r)).2

/-- The elimination step of tallyVotes: when exactly one player attains a
positive maximum, flag that player and build the eliminatedPlayer record;
otherwise leave the players untouched. -/
def tallyElimPair (r : Room) : List Player × Option EliminatedInfo :=
  match tallyElimList r with
  | [pid] =>
    if 0 < (tallyFold (voteEntries r)).1 then
      match r.players.find? (fun p => p.id == pid) with
      | some player =>
        (setEliminatedFirst r.players pid,
         some ⟨player.id, player.name, lookupRole r.roles player.id⟩)
      | none => (r.players, none)
    else (r.players, none)
  | _ => (r.players, none)

/-- app.js tallyVotes.  Returns the post-state, the voteResults payload,
and the winner if the immediate win check ends the game (none when the
game continues or the guess sub-state was entered).  When the eliminated
player was the last alive impostor, the guess sub-state is entered (flag,
guesser id and timer armed) and no win check runs. -/
def tallyVotes (r : Room) : Room × VoteResults × Option Winner :=
  let folded := tallyFold (voteEntries r)
  let elimPair := tallyElimPair r
  let r1 := { r with players := elimPair.1, phase := Phase.results }
  let res : VoteResults :=
    { votes := voteEntries r
      eliminated := elimPair.2
      tie := decide (1 < folded.2.length)
      noVotes := decide (folded.1 = 0) }
  match elimPair.2 with
  | some e =>
    if e.role == some Role.impostor ∧ (aliveImpostorsOf r1).length = 0 then
      ({ r1 with pendingImpostorGuess := true, eliminatedImpostorId := some e.id,
                 guessTimeout := true }, res, none)
    else
      let cw := checkWinConditions r1
      (cw.1, res, cw.2)
  | none =>
    let cw := checkWinConditions r1
    (cw.1, res, cw.2)

/-- app.js resetRoomForPlayAgain: cancel any timer, return to lobby, clear
roles, word, votes and pending-guess state, and clear every player's
eliminated flag.  (The turn order is not touched by the source.) -/
def resetRoomForPlayAgain (r : Room) : Room :=
  { r with
    guessTimeout := false,
    started := false,
    phase := Phase.lobby,
    roles := [],
    secretWord := none,
    votes := [],
    pendingImpostorGuess := false,
    eliminatedImpostorId := none,
    players := r.players.map (fun p => { p with eliminated := false }) }

/-- app.js isValidVoteTarget: both ids truthy, both players found in the
room, neither eliminated. -/
def isValidVoteTarget (r : Room) (voterId targetId : String) : Bool :=
  if voterId = "" || targetId = "" then false
  else
    match r.players.find? (fun p => p.id == voterId),
          r.players.find? (fun p => p.id == targetId) with
    | some voter, some target => !voter.eliminated && !target.eliminated
    | _, _ => false

/-- room.votes[voterId] = votedPlayerId on the JS object: overwrite in
place if the key exists (keeping its insertion position), else append. -/
def setVote (votes : List (String × String)) (voter target : String) :
    List (String × String) :=
  if votes.any (fun v => v.1 == voter) then
    votes.map (fun v => if v.1 == voter then (voter, target) else v)
  else votes ++ [(voter, target)]

/-- app.js submitVote handler (room part): only in the voting phase, only
for a valid voter/target pair; records the ballot and, once the number of
ballots reaches the number of alive players, auto-runs tallyVotes.
Object.keys(room.votes).length is the list length (setVote keeps keys
unique). -/
def submitVote (r : Room) (voterId targetId : String) : Room × Option Winner :=
  if r.phase ≠ Phase.voting then (r, none)
  else if !(isValidVoteTarget r voterId targetId) then (r, none)
  else
    let r1 := { r with votes := setVote r.votes voterId targetId }
    if (alivePlayers r1).length ≤ r1.votes.length then
      let t := tallyVotes r1
      (t.1, t.2.2)
    else (r1, none)

/-- app.js requestStartVoting: host-only, discussion phase only; clears
ballots and moves to voting. -/
def requestStartVoting (r : Room) (pid : String) : Room :=
  if r.hostId ≠ pid then r
  else if r.phase ≠ Phase.discussion then r
  else { r with votes := [], phase := Phase.voting }

/-- app.js requestEndVoting: host-only, voting phase only; runs
tallyVotes. -/
def requestEndVoting (r : Room) (pid : String) : Room × Option Winner :=
  if r.hostId ≠ pid then (r, none)
  else if r.phase ≠ Phase.voting then (r, none)
  else
    let t := tallyVotes r
    (t.1, t.2.2)

/-- app.js updateTurnOrder: prune the turn order down to entries whose
player is still in the room and not eliminated. -/
def updateTurnOrder (r : Room) : List (String × String) :=
  r.turnOrder.filter (fun t =>
    match r.players.find? (fun p => p.id == t.1) with
    | some p => !p.eliminated
    | none => false)

/-- app.js requestNextRound: host-only, results phase only, refused when
the win conditions already hold; clears ballots, prunes the turn order and
returns to discussion. -/
def requestNextRound (r : Room) (pid : String) : Room :=
  if r.hostId ≠ pid then r
  else if r.phase ≠ Phase.results then r
  else if (aliveImpostorsOf r).length = 0 ∨
      (aliveCrewOf r).length ≤ (aliveImpostorsOf r).length then r
  else { r with votes := [], turnOrder := updateTurnOrder r, phase := Phase.discussion }

/-- app.js setImpostorCount: host-only, lobby only, 1 ≤ n ≤ 3. -/
def setImpostorCount (r : Room) (pid : String) (n : Nat) : Room :=
  if r.hostId ≠ pid then r
  else if r.phase ≠ Phase.lobby then r
  else if n < MIN_IMPOSTORS ∨ MAX_IMPOSTORS < n then r
  else { r with impostorCount := n }

/-- app.js selectMode: host-only, lobby only, mode string must be
"preset" or "custom"; resets category and custom words. -/
def selectMode (r : Room) (pid mode : String) : Room :=
  if r.hostId ≠ pid then r
  else if r.phase ≠ Phase.lobby then r
  else if mode = "preset" then
    { r with mode := Mode.preset, selectedCategory := none, customWords := [] }
  else if mode = "custom" then
    { r with mode := Mode.custom, selectedCategory := none, customWords := [] }
  else r

/-- app.js selectCategory: host-only, lobby only, preset mode only, and
the category must exist in the server table. -/
def selectCategory (r : Room) (pid cat : String) : Room :=
  if r.hostId ≠ pid then r
  else if r.phase ≠ Phase.lobby then r
  else if r.mode ≠ Mode.preset then r
  else match List.lookup cat categories with
    | none => r
    | some _ => { r with selectedCategory := some cat }

/-- app.js submitCustomWords: host-only, lobby only, custom mode only;
split on newlines, trim, drop empties, keep the valid words if at least
MIN_CUSTOM_WORDS of them survive, else clear the list. -/
def submitCustomWords (r : Room) (pid input : String) : Room :=
  if r.hostId ≠ pid then r
  else if r.phase ≠ Phase.lobby then r
  else if r.mode ≠ Mode.custom then r
  else
    let words := ((input.splitOn "\n").map jsTrim).filter (fun w => 0 < w.length)
    let validWords := words.filter isValidWord
    if MIN_CUSTOM_WORDS ≤ validWords.length then { r with customWords := validWords }
    else { r with customWords := [] }

/-- app.js joinSession (room part): requires truthy payload fields, a
valid name, lobby phase, a free slot and a fresh player id; appends a
non-host, non-eliminated player with the trimmed name. -/
def joinSession (r : Room) (pid name : String) : Room :=
  if pid = "" ∨ name = "" then r
  else if !(isValidName (jsTrim name)) then r
  else if r.phase ≠ Phase.lobby then r
  else if MAX_PLAYERS_PER_ROOM ≤ r.players.length then r
  else if (r.players.find? (fun p => p.id == pid)).isSome then r
  else { r with players := r.players ++ [⟨pid, jsTrim name, false, false⟩] }

/-- The role-assignment forEach of the startGame handler:
shuffledForRoles.forEach((player, index) => roles[player.id] = index <
impostorCount ? impostor : crew), with i the running absolute index.  Each
assignment conses its binding (see the modelling note on room.roles). -/
def assignRolesFrom (roles : List (String × Role)) (k : Nat) (i : Nat) :
    List Player → List (String × Role)
  | [] => roles
  | p :: ps =>
    assignRolesFrom ((p.id, if i < k then Role.impostor else Role.crew) :: roles) k (i + 1) ps

/-- The word source of startGame: the selected preset category's list, or
the validated custom list when it has at least MIN_CUSTOM_WORDS entries. -/
def wordSource (r : Room) : Option (List String) :=
  match r.mode with
  | Mode.preset =>
    match r.selectedCategory with
    | none => none
    | some c => List.lookup c categories
  | Mode.custom =>
    if r.customWords.length < MIN_CUSTOM_WORDS then none
    else some r.customWords

/-- The effective impostor count of the startGame handler:
room.impostorCount || 1. -/
def effImpostorCount (r : Room) : Nat :=
  if r.impostorCount = 0 then 1 else r.impostorCount

/-- app.js startGame handler.  none on any failed guard (the handler
reports an error and leaves the room unchanged); on success: secret word
drawn from the word source (wordIdx is the random draw), eliminated flags
cleared, roles assigned over one shuffle of the player list, turn order
built from a second, independent shuffle.  c1 and c2 are the two shuffles'
random-draw streams. -/
def startGame (r : Room) (pid : String) (wordIdx : Nat) (c1 c2 : List Nat) :
    Option Room :=
  if r.hostId ≠ pid then none
  else if r.phase ≠ Phase.lobby then none
  else if r.players.length < 2 then none
  else if effImpostorCount r < MIN_IMPOSTORS then none
  else if r.players.length ≤ effImpostorCount r then none
  else
    match wordSource r with
    | none => none
    | some wordList =>
      some { r with
        started := true,
        secretWord := wordList.get? (wordIdx % wordList.length),
        pendingImpostorGuess := false,
        eliminatedImpostorId := none,
        players := r.players.map (fun p => { p with eliminated := false }),
        roles := assignRolesFrom r.roles (effImpostorCount r) 0 (shuffleArray r.players c1),
        turnOrder := (shuffleArray r.players c2).map (fun p => (p.id, p.name)),
        phase := Phase.discussion }

/-- app.js submitWordGuess handler: only while a guess is pending and only
for the eliminated impostor; rejects over-long guesses; compares the guess
to the secret word after trimming and lowercasing both sides and resolves
via endGameAfterGuess. -/
def submitWordGuess (r : Room) (pid : String) (guess : String) :
    Room × Option Winner :=
  if !r.pendingImpostorGuess then (r, none)
  else if r.eliminatedImpostorId ≠ some pid then (r, none)
  else if MAX_WORD_LENGTH < guess.length then (r, none)
  else
    let normalizedGuess := jsToLower (jsTrim guess)
    let normalizedWord := jsToLower (jsTrim (r.secretWord.getD ""))
    let isCorrect := normalizedGuess == normalizedWord
    let e := endGameAfterGuess r isCorrect
    (e.1, some e.2)

/-- The guess-timeout callback armed by tallyVotes: resolves the pending
guess as incorrect, guarded by the pending flag. -/
def guessTimerFire (r : Room) : Room × Option Winner :=
  if r.pendingImpostorGuess then
    let e := endGameAfterGuess r false
    (e.1, some e.2)
  else (r, none)

/-- app.js disconnect handler (room part): a disconnect of the pending
guesser resolves the guess as incorrect; then, if the room is (now) in the
lobby phase, the player is removed together with their role and their own
ballot.  (Deletion of an emptied lobby room is registry-level.) -/
def disconnectRoom (r : Room) (pid : String) : Room × Option Winner :=
  let first : Room × Option Winner :=
    if r.pendingImpostorGuess ∧ r.eliminatedImpostorId = some pid then
      let e := endGameAfterGuess r false
      (e.1, some e.2)
    else (r, none)
  let r1 := first.1
  if r1.phase = Phase.lobby then
    ({ r1 with
        players := r1.players.filter (fun p => !(p.id == pid)),
        roles := r1.roles.filter (fun e => !(e.1 == pid)),
        votes := r1.votes.filter (fun v => !(v.1 == pid)) }, first.2)
  else (r1, first.2)

/-- app.js kickPlayer: host-only, cannot kick yourself, target must be a
member; removes the player, their role binding, their own ballot and their
turn-order entry, then re-checks win conditions when mid-game. -/
def kickPlayer (r : Room) (pid targetId : String) : Room × Option Winner :=
  if r.hostId ≠ pid then (r, none)
  else if targetId = pid then (r, none)
  else
    match r.players.find? (fun p => p.id == targetId) with
    | none => (r, none)
    | some _ =>
      let r1 := { r with
        players := r.players.filter (fun p => !(p.id == targetId)),
        roles := r.roles.filter (fun e => !(e.1 == targetId)),
        votes := r.votes.filter (fun v => !(v.1 == targetId)),
        turnOrder := r.turnOrder.filter (fun t => !(t.1 == targetId)) }
      if r1.phase ≠ Phase.lobby ∧ r1.phase ≠ Phase.ended then checkWinConditions r1
      else (r1, none)

/-- app.js requestPlayAgain, restricted to the room stored at roomCode:
the effective code and player id come from the payload when truthy, else
from the socket binding; requires a valid code naming this room, the host
id and phase "ended", then hard-resets the room. -/
def requestPlayAgainRoom (roomCode : String) (r : Room)
    (sockPid sockCode payloadCode payloadPid : Option String) : Room :=
  let effCode := jsOr payloadCode sockCode
  let effPid := jsOr payloadPid sockPid
  match effCode with
  | none => r
  | some c =>
    if !(isValidRoomCode c) then r
    else if c ≠ roomCode then r
    else
      match effPid with
      | none => r
      | some p =>
        if p = "" then r
        else if r.hostId ≠ p then r
        else if r.phase ≠ Phase.ended then r
        else resetRoomForPlayAgain r

/-- The inbound events that can touch an existing room, with their
payloads.  Random draws (for startGame) are part of the event.  The
requestPlayAgain event carries both the socket binding and the optional
payload fields. -/
inductive GEvent where
  | reconnectEv (pid code name : String)
  | setImpostorCountEv (pid : String) (n : Nat)
  | selectModeEv (pid mode : String)
  | selectCategoryEv (pid cat : String)
  | submitCustomWordsEv (pid input : String)
  | joinSessionEv (pid name : String)
  | startGameEv (pid : String) (wordIdx : Nat) (c1 c2 : List Nat)
  | submitWordGuessEv (pid guess : String)
  | requestStartVotingEv (pid : String)
  | requestNextRoundEv (pid : String)
  | requestEndVotingEv (pid : String)
  | requestPlayAgainEv (sockPid sockCode payloadCode payloadPid : Option String)
  | kickPlayerEv (pid targetId : String)
  | submitVoteEv (pid targetId : String)
  | disconnectEv (pid : String)
  | guessTimerFireEv

/-- One step of the per-room state machine: dispatch of a single inbound
event on the room stored at `code`, returning the new room state and the
winner announced by this step, if any.  A reconnect never mutates room
state (it only rebinds the socket and replays state). -/
def step (ev : GEvent) (code : String) (r : Room) : Room × Option Winner :=
  match ev with
  | GEvent.reconnectEv _ _ _ => (r, none)
  | GEvent.setImpostorCountEv pid n => (setImpostorCount r pid n, none)
  | GEvent.selectModeEv pid m => (selectMode r pid m, none)
  | GEvent.selectCategoryEv pid c => (selectCategory r pid c, none)
  | GEvent.submitCustomWordsEv pid i => (submitCustomWords r pid i, none)
  | GEvent.joinSessionEv pid n => (joinSession r pid n, none)
  | GEvent.startGameEv pid wi c1 c2 => ((startGame r pid wi c1 c2).getD r, none)
  | GEvent.submitWordGuessEv pid g => submitWordGuess r pid g
  | GEvent.requestStartVotingEv pid => (requestStartVoting r pid, none)
  | GEvent.requestNextRoundEv pid => (requestNextRound r pid, none)
  | GEvent.requestEndVotingEv pid => requestEndVoting r pid
  | GEvent.requestPlayAgainEv sp sc pc pp =>
    (requestPlayAgainRoom code r sp sc pc pp, none)
  | GEvent.kickPlayerEv pid t => kickPlayer r pid t
  | GEvent.submitVoteEv pid t => submitVote r pid t
  | GEvent.disconnectEv pid => disconnectRoom r pid
  | GEvent.guessTimerFireEv => guessTimerFire r

/-- The room-state invariant claimed by the spec for the votes map: every
ballot's voter and target are non-eliminated members. -/
def voteInv (r : Room) : Bool :=
  r.votes.all (fun v =>
    (alivePlayers r).any (fun p => p.id == v.1) &&
    (alivePlayers r).any (fun p => p.id == v.2))

/-- The host invariant claimed by the spec: exactly one player carries the
host flag, and that player's id is the room's host identity. -/
def hostInv (r : Room) : Bool :=
  ((r.players.filter (fun p => p.isHost)).map (fun p => p.id)) == [r.hostId]

/-- The snapshot payload of a successful reconnect. -/
structure ReconnectSnapshot where
  roomCode : String
  isHost : Bool
  phase : Phase
  role : Option Role
  category : Option String
  word : Option String
  eliminated : Bool
  pendingGuess : Bool
  turnOrder : List (String × String)
deriving Repr, DecidableEq

/-- app.js reconnect handler over the room registry (code → Room map):
fails (reconnectFailed) on a falsy player id or room code, a malformed
code, an unknown room, or an identity that is not a member; otherwise
returns the snapshot emitted as reconnectSuccess.  The room code is
uppercased before validation and lookup. -/
def reconnectHandler (rooms : List (String × Room))
    (playerId roomCode : String) : Option ReconnectSnapshot :=
  if playerId = "" ∨ roomCode = "" then none
  else
    let code := jsToUpper roomCode
    if !(isValidRoomCode code) then none
    else
      match List.lookup code rooms with
      | none => none
      | some room =>
        match room.players.find? (fun p => p.id == playerId) with
        | none => none
        | some player =>
          let role := lookupRole room.roles playerId
          some {
            roomCode := code,
            isHost := room.hostId == playerId,
            phase := room.phase,
            role := role,
            category :=
              match room.mode with
              | Mode.preset => room.selectedCategory
              | Mode.custom => some "Custom",
            word := if role == some Role.crew then room.secretWord else none,
            eliminated := player.eliminated,
            pendingGuess :=
              room.pendingImpostorGuess && room.eliminatedImpostorId == some playerId,
            turnOrder := room.turnOrder }

/-- Replace the room stored at a code in the registry. -/
def updateRoomAt (rooms : List (String × Room)) (code : String) (r : Room) :
    List (String × Room) :=
  rooms.map (fun e => if e.1 == code then (code, r) else e)

/-- app.js requestPlayAgain at registry level, used for the
payload-determines-outcome property: the socket binding is consulted only
where the payload field is falsy.  Returns the updated registry and
whether the reset happened. -/
def requestPlayAgainHandler (rooms : List (String × Room))
    (sockPid sockCode payloadCode payloadPid : Option String) :
    List (String × Room) × Bool :=
  let effCode := jsOr payloadCode sockCode
  let effPid := jsOr payloadPid sockPid
  match effCode with
  | none => (rooms, false)
  | some c =>
    if !(isValidRoomCode c) then (rooms, false)
    else
      match List.lookup c rooms with
      | none => (rooms, false)
      | some room =>
        match effPid with
        | none => (rooms, false)
        | some p =>
          if p = "" then (rooms, false)
          else if room.hostId ≠ p then (rooms, false)
          else if room.phase ≠ Phase.ended then (rooms, false)
          else (updateRoomAt rooms c (resetRoomForPlayAgain room), true)

/-- The three triggers that can resolve the guess sub-state. -/
inductive GuessTrigger where
  | submit (pid guess : String)
  | timerFire
  | disconnectT (pid : String)

/-- Dispatch of a guess-sub-state trigger. -/
def applyGuessTrigger : GuessTrigger → Room → Room × Option Winner
  | GuessTrigger.submit pid g, r => submitWordGuess r pid g
  | GuessTrigger.timerFire, r => guessTimerFire r
  | GuessTrigger.disconnectT pid, r => disconnectRoom r pid

/-- Maximum of a list of naturals (0 for the empty list). -/
def maxOf (l : List Nat) : Nat := l.foldr max 0

/-- The first components of the entries whose count equals m. -/
def attain (l : List (String × Nat)) (m : Nat) : List String :=
  (l.filter (fun e => e.2 == m)).map Prod.fst

/-- The maximum ballot count over the alive players of a room. -/
def maxVoteCount (r : Room) : Nat := maxOf ((voteEntries r).map Prod.snd)

/-- The alive players attaining the maximum ballot count. -/
def maxHolders (r : Room) : List Player :=
  (alivePlayers r).filter (fun p => countBallots r.votes p.id == maxVoteCount r)

/-- A room in the voting phase with four players, all ballots cast on
player p2 (end-to-end scenario B of the spec). -/
def roomVotingEx : Room :=
  { hostId := "p1", started := true, phase := Phase.voting, mode := Mode.preset,
    impostorCount := 1,
    players := [⟨"p1", "Alice", true, false⟩, ⟨"p2", "Bob", false, false⟩,
                ⟨"p3", "Carol", false, false⟩, ⟨"p4", "Dave", false, false⟩],
    roles := [("p1", Role.crew), ("p2", Role.impostor), ("p3", Role.crew), ("p4", Role.crew)],
    selectedCategory := some "Animals", customWords := [], secretWord := some "Dog ",
    votes := [("p1", "p2"), ("p3", "p2"), ("p4", "p2")],
    pendingImpostorGuess := false, eliminatedImpostorId := none,
    guessTimeout := false,
    turnOrder := [("p2", "Bob"), ("p1", "Alice"), ("p4", "Dave"), ("p3", "Carol")] }

/-- A room in the guess sub-state: the sole impostor p2 has been
eliminated and may guess the secret word "Dog " (end-to-end scenario C). -/
def roomGuessEx : Room :=
  { hostId := "p1", started := true, phase := Phase.results, mode := Mode.preset,
    impostorCount := 1,
    players := [⟨"p1", "Alice", true, false⟩, ⟨"p2", "Bob", false, true⟩,
                ⟨"p3", "Carol", false, false⟩, ⟨"p4", "Dave", false, false⟩],
    roles := [("p1", Role.crew), ("p2", Role.impostor), ("p3", Role.crew), ("p4", Role.crew)],
    selectedCategory := some "Animals", customWords := [], secretWord := some "Dog ",
    votes := [("p1", "p2"), ("p3", "p2"), ("p4", "p2")],
    pendingImpostorGuess := true, eliminatedImpostorId := some "p2",
    guessTimeout := true,
    turnOrder := [("p2", "Bob"), ("p1", "Alice"), ("p4", "Dave"), ("p3", "Carol")] }

/-- A room in the discussion phase (for the end-round-early claim). -/
def roomDiscussionEx : Room :=
  { roomVotingEx with phase := Phase.discussion, votes := [] }

/-- A lobby room with a host and one other player (for the host
invariant claim). -/
def roomLobbyEx : Room :=
  { hostId := "p1", started := false, phase := Phase.lobby, mode := Mode.preset,
    impostorCount := 1,
    players := [⟨"p1", "Alice", true, false⟩, ⟨"p2", "Bob", false, false⟩],
    roles := [], selectedCategory := some "Animals", customWords := [],
    secretWord := none, votes := [], pendingImpostorGuess := false,
    eliminatedImpostorId := none, guessTimeout := false, turnOrder := [] }

/-- An ended room (for the play-again claims). -/
def roomEndedEx : Room :=
  { roomVotingEx with
    phase := Phase.ended,
    players := [⟨"p1", "Alice", true, false⟩, ⟨"p2", "Bob", false, true⟩,
                ⟨"p3", "Carol", false, false⟩, ⟨"p4", "Dave", false, false⟩] }

/-! ### Basic lemmas about the tally loop -/

theorem maxOf_nil : maxOf [] = 0 := rfl

theorem maxOf_cons (a : Nat) (l : List Nat) : maxOf (a :: l) = max a (maxOf l) := rfl

theorem attain_nil (m : Nat) : attain [] m = [] := rfl

theorem attain_cons (e : String × Nat) (l : List (String × Nat)) (m : Nat) :
    attain (e :: l) m = if e.2 = m then e.1 :: attain l m else attain l m := by
  simp only [attain, List.filter_cons, beq_iff_eq]
  split <;> simp

/-- Closed form of the maxVotes / eliminated loop of tallyVotes, for an
arbitrary accumulator. -/
theorem foldl_tallyStep_eq (l : List (String × Nat)) :
    ∀ (m : Nat) (ids : List String),
    l.foldl tallyStep (m, ids) =
      if maxOf (l.map Prod.snd) ≤ m then
        (m, if m = 0 then ids else ids ++ attain l m)
      else (maxOf (l.map Prod.snd), attain l (maxOf (l.map Prod.snd))) := by
  induction l with
  | nil => intro m ids; simp [maxOf, attain]
  | cons e rest ih =>
    intro m ids
    rw [List.foldl_cons]
    have hstep : tallyStep (m, ids) e =
        if m < e.2 then (e.2, [e.1])
        else if e.2 = m ∧ 0 < e.2 then (m, ids ++ [e.1])
        else (m, ids) := rfl
    rw [hstep, List.map_cons, maxOf_cons]
    by_cases h1 : m < e.2
    · rw [if_pos h1, ih]
      by_cases h2 : maxOf (rest.map Prod.snd) ≤ e.2
      · have hmax : max e.2 (maxOf (rest.map Prod.snd)) = e.2 := by omega
        have hc : ¬ max e.2 (maxOf (rest.map Prod.snd)) ≤ m := by omega
        have hz : ¬ e.2 = 0 := by omega
        rw [if_pos h2, hmax, if_neg (by omega : ¬ e.2 ≤ m), attain_cons, if_pos rfl,
          if_neg hz]
        simp
      · have hlt : e.2 < maxOf (rest.map Prod.snd) := by omega
        have hmax : max e.2 (maxOf (rest.map Prod.snd)) = maxOf (rest.map Prod.snd) := by
          omega
        have hc : ¬ maxOf (rest.map Prod.snd) ≤ m := by omega
        have hne : ¬ e.2 = maxOf (rest.map Prod.snd) := by omega
        rw [if_neg h2, hmax, if_neg hc, attain_cons, if_neg hne]
    · rw [if_neg h1]
      by_cases h2 : e.2 = m ∧ 0 < e.2
      · rw [if_pos h2, ih]
        obtain ⟨h2a, h2b⟩ := h2
        by_cases h3 : maxOf (rest.map Prod.snd) ≤ m
        · have hmax : max e.2 (maxOf (rest.map Prod.snd)) = m := by omega
          have hz : ¬ m = 0 := by omega
          rw [if_pos h3, hmax, if_pos (le_refl m), if_neg hz, if_neg hz, attain_cons,
            if_pos h2a]
          simp
        · have hmax : max e.2 (maxOf (rest.map Prod.snd)) = maxOf (rest.map Prod.snd) := by
            omega
          have hne : ¬ e.2 = maxOf (rest.map Prod.snd) := by omega
          rw [if_neg h3, hmax, if_neg h3, attain_cons, if_neg hne]
      · rw [if_neg h2, ih]
        by_cases h3 : maxOf (rest.map Prod.snd) ≤ m
        · have hc : max e.2 (maxOf (rest.map Prod.snd)) ≤ m := by omega
          rw [if_pos h3, if_pos hc]
          by_cases h4 : m = 0
          · rw [if_pos h4, if_pos h4]
          · have hne : ¬ e.2 = m := by omega
            rw [if_neg h4, if_neg h4, attain_cons, if_neg hne]
        · have hmax : max e.2 (maxOf (rest.map Prod.snd)) = maxOf (rest.map Prod.snd) := by
            omega
          have hne : ¬ e.2 = maxOf (rest.map Prod.snd) := by omega
          rw [if_neg h3, hmax, if_neg h3, attain_cons, if_neg hne]

/-- Closed form of tallyFold: the first component is the maximum count,
the second lists the entries attaining it when it is positive. -/
theorem tallyFold_eq (l : List (String × Nat)) :
    tallyFold l = (maxOf (l.map Prod.snd),
      if maxOf (l.map Prod.snd) = 0 then []
      else attain l (maxOf (l.map Prod.snd))) := by
  rw [tallyFold, foldl_tallyStep_eq]
  by_cases h : maxOf (l.map Prod.snd) = 0
  · rw [h]
    simp
  · rw [if_neg (by omega), if_neg h]

/-! ### Vote-count entries under distinct player ids -/

theorem dedupFirstAux_eq_self : ∀ (l seen : List String), l.Nodup →
    (∀ x ∈ l, x ∉ seen) → dedupFirstAux seen l = l := by
  intro l
  induction l with
  | nil => intro seen _ _; rfl
  | cons x xs ih =>
    intro seen hnd hdisj
    have hx : x ∉ seen := hdisj x (List.mem_cons_self x xs)
    have hc : seen.contains x = false := by simpa using hx
    simp only [dedupFirstAux, hc, Bool.false_eq_true, if_false]
    congr 1
    apply ih
    · exact (List.nodup_cons.mp hnd).2
    · intro y hy
      simp only [List.mem_cons, not_or]
      constructor
      · intro hyx
        exact (List.nodup_cons.mp hnd).1 (hyx ▸ hy)
      · exact hdisj y (List.mem_cons_of_mem x hy)

theorem aliveIds_eq (r : Room) (hnd : (r.players.map (fun p => p.id)).Nodup) :
    aliveIds r = (alivePlayers r).map (fun p => p.id) := by
  apply dedupFirstAux_eq_self
  · exact hnd.sublist ((List.filter_sublist r.players).map (fun p => p.id))
  · intro x _
    exact List.not_mem_nil x

theorem voteEntries_eq (r : Room) (hnd : (r.players.map (fun p => p.id)).Nodup) :
    voteEntries r =
      (alivePlayers r).map (fun p => (p.id, countBallots r.votes p.id)) := by
  rw [voteEntries, aliveIds_eq r hnd, List.map_map]
  rfl

theorem attain_voteEntries (r : Room) (hnd : (r.players.map (fun p => p.id)).Nodup)
    (m : Nat) :
    attain (voteEntries r) m =
      ((alivePlayers r).filter
        (fun p => countBallots r.votes p.id == m)).map (fun p => p.id) := by
  rw [voteEntries_eq r hnd, attain, List.filter_map, List.map_map]
  rfl

theorem maxVoteCount_eq (r : Room) (hnd : (r.players.map (fun p => p.id)).Nodup) :
    maxVoteCount r = maxOf ((alivePlayers r).map (fun p => countBallots r.votes p.id)) := by
  rw [maxVoteCount, voteEntries_eq r hnd, List.map_map]
  rfl

theorem countBallots_filter (votes : List (String × String))
    (P : String × String → Bool) (pid : String)
    (h : ∀ v ∈ votes, v.2 == pid → P v = true) :
    countBallots (votes.filter P) pid = countBallots votes pid := by
  rw [countBallots, countBallots, List.filter_filter]
  apply congrArg List.length
  apply List.filter_congr
  intro a ha
  by_cases hb : a.2 == pid
  · simp [hb, h a ha hb]
  · simp [hb]

/-! ### Lemmas about elimination flagging and the win-check projections -/

theorem mem_of_id_eq_nodup {ps : List Player}
    (hnd : (ps.map (fun p => p.id)).Nodup) {p q : Player}
    (hp : p ∈ ps) (hq : q ∈ ps) (h : p.id = q.id) : p = q :=
  List.inj_on_of_nodup_map hnd hp hq h

theorem find?_id_eq_of_mem_nodup : ∀ (ps : List Player),
    (ps.map (fun p => p.id)).Nodup → ∀ h : Player, h ∈ ps →
    ps.find? (fun q => q.id == h.id) = some h := by
  intro ps
  induction ps with
  | nil => intro _ h hmem; exact absurd hmem (List.not_mem_nil h)
  | cons p rest ih =>
    intro hnd h hmem
    rw [List.map_cons, List.nodup_cons] at hnd
    rcases List.mem_cons.mp hmem with rfl | hmem2
    · exact List.find?_cons_of_pos rest (by simp)
    · have hne : ¬ ((fun q => q.id == h.id) p = true) := by
        simp only [beq_iff_eq]
        intro hb
        exact hnd.1 (hb ▸ List.mem_map_of_mem (fun p => p.id) hmem2)
      rw [List.find?_cons_of_neg rest hne]
      exact ih hnd.2 h hmem2

theorem mem_setEliminatedFirst : ∀ (ps : List Player) (pid : String) (q : Player),
    q ∈ setEliminatedFirst ps pid →
    q ∈ ps ∨ ∃ w ∈ ps, w.id = pid ∧ q = { w with eliminated := true } := by
  intro ps
  induction ps with
  | nil => intro pid q h; exact absurd h (by simp [setEliminatedFirst])
  | cons p rest ih =>
    intro pid q h
    rw [setEliminatedFirst] at h
    by_cases hp : (p.id == pid) = true
    · rw [if_pos hp] at h
      rcases List.mem_cons.mp h with h1 | h1
      · exact Or.inr ⟨p, List.mem_cons_self p rest, by simpa using hp, h1⟩
      · exact Or.inl (List.mem_cons_of_mem p h1)
    · rw [if_neg hp] at h
      rcases List.mem_cons.mp h with h1 | h1
      · exact Or.inl (h1 ▸ List.mem_cons_self p rest)
      · rcases ih pid q h1 with h2 | ⟨w, hw, hwid, hq⟩
        · exact Or.inl (List.mem_cons_of_mem p h2)
        · exact Or.inr ⟨w, List.mem_cons_of_mem p hw, hwid, hq⟩

theorem mem_setEliminatedFirst_self : ∀ (ps : List Player),
    (ps.map (fun p => p.id)).Nodup → ∀ h : Player, h ∈ ps →
    { h with eliminated := true } ∈ setEliminatedFirst ps h.id := by
  intro ps
  induction ps with
  | nil => intro _ h hmem; exact absurd hmem (List.not_mem_nil h)
  | cons p rest ih =>
    intro hnd h hmem
    rw [List.map_cons, List.nodup_cons] at hnd
    rcases List.mem_cons.mp hmem with rfl | hmem2
    · rw [setEliminatedFirst, if_pos (by simp)]
      exact List.mem_cons_self _ _
    · have hne : ¬ ((p.id == h.id) = true) := by
        simp only [beq_iff_eq]
        intro hb
        exact hnd.1 (hb ▸ List.mem_map_of_mem (fun p => p.id) hmem2)
      rw [setEliminatedFirst, if_neg hne]
      exact List.mem_cons_of_mem p (ih hnd.2 h hmem2)

theorem setEliminatedFirst_countP_le : ∀ (ps : List Player) (pid : String),
    (setEliminatedFirst ps pid).countP (fun p => p.eliminated) ≤
      ps.countP (fun p => p.eliminated) + 1 := by
  intro ps
  induction ps with
  | nil => intro pid; simp [setEliminatedFirst]
  | cons p rest ih =>
    intro pid
    rw [setEliminatedFirst]
    by_cases hp : (p.id == pid) = true
    · rw [if_pos hp]
      simp only [List.countP_cons]
      have := List.countP_le_length (l := rest) (fun p => p.eliminated)
      split <;> split <;> omega
    · rw [if_neg hp]
      simp only [List.countP_cons]
      have := ih pid
      split <;> omega

theorem setEliminatedFirst_map_id : ∀ (ps : List Player) (pid : String),
    (setEliminatedFirst ps pid).map (fun p => p.id) = ps.map (fun p => p.id) := by
  intro ps
  induction ps with
  | nil => intro pid; rfl
  | cons p rest ih =>
    intro pid
    rw [setEliminatedFirst]
    by_cases hp : (p.id == pid) = true
    · rw [if_pos hp]
      simp
    · rw [if_neg hp]
      simp [ih pid]

theorem setEliminatedFirst_map_hostSig : ∀ (ps : List Player) (pid : String),
    (setEliminatedFirst ps pid).map (fun p => (p.id, p.isHost)) =
      ps.map (fun p => (p.id, p.isHost)) := by
  intro ps
  induction ps with
  | nil => intro pid; rfl
  | cons p rest ih =>
    intro pid
    rw [setEliminatedFirst]
    by_cases hp : (p.id == pid) = true
    · rw [if_pos hp]
      simp
    · rw [if_neg hp]
      simp [ih pid]

theorem checkWinConditions_players (r : Room) :
    (checkWinConditions r).1.players = r.players := by
  rw [checkWinConditions]
  split_ifs <;> rfl

theorem checkWinConditions_roles (r : Room) :
    (checkWinConditions r).1.roles = r.roles := by
  rw [checkWinConditions]
  split_ifs <;> rfl

theorem checkWinConditions_votes (r : Room) :
    (checkWinConditions r).1.votes = r.votes := by
  rw [checkWinConditions]
  split_ifs <;> rfl

theorem tallyVotes_res (r : Room) :
    (tallyVotes r).2.1 =
      { votes := voteEntries r
        eliminated := (tallyElimPair r).2
        tie := decide (1 < (tallyFold (voteEntries r)).2.length)
        noVotes := decide ((tallyFold (voteEntries r)).1 = 0) } := by
  rw [tallyVotes]
  rcases (tallyElimPair r).2 with _ | e
  · rfl
  · simp only []
    split <;> rfl

theorem tallyVotes_players (r : Room) :
    (tallyVotes r).1.players = (tallyElimPair r).1 := by
  rw [tallyVotes]
  rcases (tallyElimPair r).2 with _ | e
  · exact checkWinConditions_players _
  · simp only []
    split
    · rfl
    · exact checkWinConditions_players _

theorem tallyElimList_eq (r : Room) (hnd : (r.players.map (fun p => p.id)).Nodup) :
    tallyElimList r = if maxVoteCount r = 0 then []
      else (maxHolders r).map (fun p => p.id) := by
  rw [tallyElimList, tallyFold_eq]
  show (if maxVoteCount r = 0 then [] else attain (voteEntries r) (maxVoteCount r)) = _
  rw [attain_voteEntries r hnd]
  rfl

theorem tallyFold_fst (r : Room) :
    (tallyFold (voteEntries r)).1 = maxVoteCount r := by
  rw [tallyFold_eq]
  rfl

theorem voteEntries_filter_alive (r : Room)
    (hnd : (r.players.map (fun p => p.id)).Nodup) :
    voteEntries { r with
      votes := r.votes.filter (fun v => (alivePlayers r).any (fun p => p.id == v.2)) } =
      voteEntries r := by
  rw [voteEntries, voteEntries]
  have hids : aliveIds { r with
      votes := r.votes.filter (fun v => (alivePlayers r).any (fun p => p.id == v.2)) } =
      aliveIds r := rfl
  rw [hids]
  apply List.map_congr_left
  intro pid hpid
  rw [aliveIds_eq r hnd] at hpid
  obtain ⟨p, hp, hpid2⟩ := List.mem_map.mp hpid
  have hcond : ∀ v ∈ r.votes, (v.2 == pid) = true →
      ((alivePlayers r).any (fun q => q.id == v.2)) = true := by
    intro v _ hv
    rw [beq_iff_eq] at hv
    rw [List.any_eq_true]
    refine ⟨p, hp, ?_⟩
    rw [hv, hpid2]
    exact beq_self_eq_true pid
  show (pid,
    countBallots (r.votes.filter (fun v => (alivePlayers r).any (fun p => p.id == v.2))) pid) = _
  rw [countBallots_filter r.votes _ pid hcond]

theorem checkWinConditions_snd_congr (ra rb : Room)
    (hp : ra.players = rb.players) (hr : ra.roles = rb.roles)
    (hg : ra.pendingImpostorGuess = rb.pendingImpostorGuess) :
    (checkWinConditions ra).2 = (checkWinConditions rb).2 := by
  have h1 : aliveImpostorsOf ra = aliveImpostorsOf rb := by
    rw [aliveImpostorsOf, aliveImpostorsOf, alivePlayers, alivePlayers, hp, hr]
  have h2 : aliveCrewOf ra = aliveCrewOf rb := by
    rw [aliveCrewOf, aliveCrewOf, alivePlayers, alivePlayers, hp, hr]
  rw [checkWinConditions, checkWinConditions, h1, h2, hg]
  split_ifs <;> rfl

theorem tallyVotes_winner (r : Room) :
    (tallyVotes r).2.2 =
      match (tallyElimPair r).2 with
      | some e =>
        if e.role == some Role.impostor ∧
            (aliveImpostorsOf
              { r with players := (tallyElimPair r).1, phase := Phase.results }).length = 0
        then none
        else (checkWinConditions
          { r with players := (tallyElimPair r).1, phase := Phase.results }).2
      | none => (checkWinConditions
          { r with players := (tallyElimPair r).1, phase := Phase.results }).2 := by
  rw [tallyVotes]
  rcases (tallyElimPair r).2 with _ | e
  · rfl
  · simp only []
    split <;> rfl

theorem tallyElimPair_votes_congr (r : Room) (votes' : List (String × String))
    (h : voteEntries { r with votes := votes' } = voteEntries r) :
    tallyElimPair { r with votes := votes' } = tallyElimPair r := by
  rw [tallyElimPair, tallyElimPair, tallyElimList, tallyElimList, h]


theorem tallyVotes_winner_congr (ra rb : Room)
    (hpair : tallyElimPair ra = tallyElimPair rb)
    (hp : ra.players = rb.players) (hr : ra.roles = rb.roles)
    (hg : ra.pendingImpostorGuess = rb.pendingImpostorGuess) :
    (tallyVotes ra).2.2 = (tallyVotes rb).2.2 := by
  rw [tallyVotes_winner, tallyVotes_winner, hpair]
  rcases (tallyElimPair rb).2 with _ | e
  · exact checkWinConditions_snd_congr _ _ rfl hr hg
  · simp only []
    have hai : aliveImpostorsOf { ra with
          players := (tallyElimPair rb).1, phase := Phase.results } =
        aliveImpostorsOf { rb with
          players := (tallyElimPair rb).1, phase := Phase.results } := by
      simp only [aliveImpostorsOf, alivePlayers]
      rw [hr]
    rw [hai]
    split
    · rfl
    · exact checkWinConditions_snd_congr _ _ rfl hr hg

theorem tallyVotes_votes_congr (r : Room) (votes' : List (String × String))
    (h : voteEntries { r with votes := votes' } = voteEntries r) :
    (tallyVotes { r with votes := votes' }).2 = (tallyVotes r).2 ∧
    (tallyVotes { r with votes := votes' }).1.players = (tallyVotes r).1.players := by
  have hpair := tallyElimPair_votes_congr r votes' h
  refine ⟨?_, ?_⟩
  · have hres : (tallyVotes { r with votes := votes' }).2.1 = (tallyVotes r).2.1 := by
      rw [tallyVotes_res, tallyVotes_res, h, hpair]
    have hwin := tallyVotes_winner_congr { r with votes := votes' } r hpair rfl rfl rfl
    exact Prod.ext hres hwin
  · rw [tallyVotes_players, tallyVotes_players, hpair]

theorem mem_maxHolders_alive {r : Room} {h : Player} (hm : h ∈ maxHolders r) :
    h ∈ r.players ∧ h.eliminated = false := by
  rw [maxHolders] at hm
  have h1 := List.mem_of_mem_filter hm
  rw [alivePlayers] at h1
  refine ⟨List.mem_of_mem_filter h1, ?_⟩
  have h3 := List.of_mem_filter h1
  simpa using h3

/-- C1: for every room in the voting phase (with distinct player ids, as
reachable rooms have), tallyVotes eliminates at most one player; a player
is newly eliminated iff they are the unique holder of the maximum ballot
count and that maximum is positive; a zero maximum yields the noVotes
outcome with no elimination; a shared positive maximum yields the tie
outcome with no elimination; and ballots whose target is not a
non-eliminated member are ignored (filtering them away changes neither
the announced results nor the resulting player list). -/
theorem tallyVotes_plurality_spec (r : Room) (hph : r.phase = Phase.voting)
    (hnd : (r.players.map (fun p => p.id)).Nodup) :
    (((tallyVotes r).1.players.filter (fun p => p.eliminated)).length ≤
        (r.players.filter (fun p => p.eliminated)).length + 1)
    ∧ (∀ p ∈ r.players,
        (p.eliminated = false ∧
          ∃ q ∈ (tallyVotes r).1.players, q.id = p.id ∧ q.eliminated = true) ↔
        (0 < maxVoteCount r ∧ maxHolders r = [p]))
    ∧ ((tallyVotes r).2.1.eliminated.isSome = true ↔
        (0 < maxVoteCount r ∧ (maxHolders r).length = 1))
    ∧ (maxVoteCount r = 0 →
        (tallyVotes r).2.1.noVotes = true ∧ (tallyVotes r).2.1.eliminated = none ∧
        (tallyVotes r).1.players = r.players)
    ∧ (0 < maxVoteCount r → 2 ≤ (maxHolders r).length →
        (tallyVotes r).2.1.tie = true ∧ (tallyVotes r).2.1.eliminated = none ∧
        (tallyVotes r).1.players = r.players)
    ∧ ((tallyVotes { r with
          votes := r.votes.filter (fun v => (alivePlayers r).any (fun p => p.id == v.2)) }).2 =
          (tallyVotes r).2 ∧
        (tallyVotes { r with
          votes := r.votes.filter
            (fun v => (alivePlayers r).any (fun p => p.id == v.2)) }).1.players =
          (tallyVotes r).1.players) := by
  have hfilter := tallyVotes_votes_congr r _ (voteEntries_filter_alive r hnd)
  have hlist := tallyElimList_eq r hnd
  have hfst := tallyFold_fst r
  by_cases hm : maxVoteCount r = 0
  · have hE : tallyElimList r = [] := by rw [hlist, if_pos hm]
    have hpair : tallyElimPair r = (r.players, none) := by
      simp only [tallyElimPair, hE]
    have hplayers : (tallyVotes r).1.players = r.players := by
      rw [tallyVotes_players, hpair]
    refine ⟨?_, ?_, ?_, ?_, ?_, hfilter⟩
    · rw [hplayers]; omega
    · intro p hp
      constructor
      · rintro ⟨hpf, q, hq, hqid, hqe⟩
        rw [hplayers] at hq
        have hqp := mem_of_id_eq_nodup hnd hq hp hqid
        rw [hqp, hpf] at hqe
        cases hqe
      · rintro ⟨h0, _⟩
        exact absurd h0 (by omega)
    · rw [tallyVotes_res]
      simp only [hpair]
      constructor
      · intro hsome
        simp at hsome
      · rintro ⟨h0, _⟩
        exact absurd h0 (by omega)
    · intro _
      refine ⟨?_, ?_, hplayers⟩
      · rw [tallyVotes_res]
        show decide ((tallyFold (voteEntries r)).1 = 0) = true
        rw [hfst]
        exact decide_eq_true hm
      · rw [tallyVotes_res]
        simp only [hpair]
    · intro h0 _
      exact absurd h0 (by omega)
  · have hpos : 0 < maxVoteCount r := Nat.pos_of_ne_zero hm
    have hE : tallyElimList r = (maxHolders r).map (fun p => p.id) := by
      rw [hlist, if_neg hm]
    rcases hh : maxHolders r with _ | ⟨h1, hs⟩
    · have hE0 : tallyElimList r = [] := by rw [hE, hh, List.map_nil]
      have hpair : tallyElimPair r = (r.players, none) := by
        simp only [tallyElimPair, hE0]
      have hplayers : (tallyVotes r).1.players = r.players := by
        rw [tallyVotes_players, hpair]
      refine ⟨?_, ?_, ?_, ?_, ?_, hfilter⟩
      · rw [hplayers]; omega
      · intro p hp
        constructor
        · rintro ⟨hpf, q, hq, hqid, hqe⟩
          rw [hplayers] at hq
          have hqp := mem_of_id_eq_nodup hnd hq hp hqid
          rw [hqp, hpf] at hqe
          cases hqe
        · rintro ⟨_, hmh⟩
          simp at hmh
      · rw [tallyVotes_res]
        simp only [hpair]
        constructor
        · intro hsome
          simp at hsome
        · rintro ⟨_, hlen⟩
          simp at hlen
      · intro h0
        exact absurd h0 hm
      · intro _ hlen
        simp at hlen
    · rcases hs with _ | ⟨h2, hs2⟩
      · have hE1 : tallyElimList r = [h1.id] := by
          rw [hE, hh, List.map_cons, List.map_nil]
        have hmem : h1 ∈ maxHolders r := by rw [hh]; exact List.mem_cons_self h1 []
        obtain ⟨hmemp, halive⟩ := mem_maxHolders_alive hmem
        have hpair : tallyElimPair r =
            (setEliminatedFirst r.players h1.id,
             some ⟨h1.id, h1.name, lookupRole r.roles h1.id⟩) := by
          simp only [tallyElimPair, hE1, hfst,
            find?_id_eq_of_mem_nodup r.players hnd h1 hmemp]
          rw [if_pos hpos]
        have hplayers : (tallyVotes r).1.players = setEliminatedFirst r.players h1.id := by
          rw [tallyVotes_players, hpair]
        refine ⟨?_, ?_, ?_, ?_, ?_, hfilter⟩
        · rw [hplayers, ← List.countP_eq_length_filter, ← List.countP_eq_length_filter]
          exact setEliminatedFirst_countP_le r.players h1.id
        · intro p hp
          constructor
          · rintro ⟨hpf, q, hq, hqid, hqe⟩
            rw [hplayers] at hq
            rcases mem_setEliminatedFirst r.players h1.id q hq with hq2 | ⟨w, hw, hwid, hqw⟩
            · have hqp := mem_of_id_eq_nodup hnd hq2 hp hqid
              rw [hqp, hpf] at hqe
              cases hqe
            · have hwh : w = h1 := mem_of_id_eq_nodup hnd hw hmemp hwid
              have hqid2 : q.id = h1.id := by rw [hqw, hwh]
              have hph1 : p = h1 := by
                apply mem_of_id_eq_nodup hnd hp hmemp
                rw [← hqid, hqid2]
              refine ⟨hpos, ?_⟩
              rw [hph1]
          · rintro ⟨_, hmh⟩
            have hph1 : h1 = p := by injection hmh
            refine ⟨by rw [← hph1]; exact halive, ?_⟩
            refine ⟨{ h1 with eliminated := true }, ?_, by rw [← hph1], rfl⟩
            rw [hplayers]
            exact mem_setEliminatedFirst_self r.players hnd h1 hmemp
        · rw [tallyVotes_res]
          simp only [hpair]
          constructor
          · intro _
            exact ⟨hpos, rfl⟩
          · intro _
            rfl
        · intro h0
          exact absurd h0 hm
        · intro _ hlen
          simp at hlen
      · have hE2 : tallyElimList r = h1.id :: h2.id :: hs2.map (fun p => p.id) := by
          rw [hE, hh, List.map_cons, List.map_cons]
        have hpair : tallyElimPair r = (r.players, none) := by
          simp only [tallyElimPair, hE2]
        have hplayers : (tallyVotes r).1.players = r.players := by
          rw [tallyVotes_players, hpair]
        refine ⟨?_, ?_, ?_, ?_, ?_, hfilter⟩
        · rw [hplayers]; omega
        · intro p hp
          constructor
          · rintro ⟨hpf, q, hq, hqid, hqe⟩
            rw [hplayers] at hq
            have hqp := mem_of_id_eq_nodup hnd hq hp hqid
            rw [hqp, hpf] at hqe
            cases hqe
          · rintro ⟨_, hmh⟩
            simp at hmh
        · rw [tallyVotes_res]
          simp only [hpair]
          constructor
          · intro hsome
            simp at hsome
          · rintro ⟨_, hlen⟩
            simp at hlen
        · intro h0
          exact absurd h0 hm
        · intro _ _
          refine ⟨?_, ?_, hplayers⟩
          · rw [tallyVotes_res]
            show decide (1 < (tallyFold (voteEntries r)).2.length) = true
            rw [show (tallyFold (voteEntries r)).2 = tallyElimList r from rfl, hE2]
            apply decide_eq_true
            simp
          · rw [tallyVotes_res]
            simp only [hpair]

/-- Witness for C1: in the concrete voting room of end-to-end scenario B
(four players, every ballot on p2) the hypotheses hold and the theorem
yields an elimination. -/
theorem tallyVotes_plurality_spec_witness :
    roomVotingEx.phase = Phase.voting ∧
    (roomVotingEx.players.map (fun p => p.id)).Nodup ∧
    (tallyVotes roomVotingEx).2.1.eliminated.isSome = true :=
  ⟨rfl, by decide,
    ((tallyVotes_plurality_spec roomVotingEx rfl (by decide)).2.2.1).mpr (by decide)⟩

/-- C2: when the win-condition evaluator runs effectively (no guess
sub-state pending) and at least one living player holds a role — true at
every elimination or mid-game kick, where the host is still a member —
crew wins iff no impostor remains alive, impostors win iff the living
impostors at least match the living crew (parity suffices), the two
winning conditions are mutually exclusive, and when neither holds the
room is returned unchanged (so a results-phase room stays in results and
the game continues). -/
theorem checkWinConditions_spec (r : Room)
    (hpend : r.pendingImpostorGuess = false)
    (hsome : aliveImpostorsOf r ≠ [] ∨ aliveCrewOf r ≠ []) :
    ((checkWinConditions r).2 = some Winner.crew ↔ (aliveImpostorsOf r).length = 0)
    ∧ ((checkWinConditions r).2 = some Winner.impostor ↔
        (aliveCrewOf r).length ≤ (aliveImpostorsOf r).length)
    ∧ ¬((aliveImpostorsOf r).length = 0 ∧
        (aliveCrewOf r).length ≤ (aliveImpostorsOf r).length)
    ∧ ((aliveImpostorsOf r).length ≠ 0 →
        ¬((aliveCrewOf r).length ≤ (aliveImpostorsOf r).length) →
        checkWinConditions r = (r, none)) := by
  have hpend2 : ¬ (r.pendingImpostorGuess = true) := by rw [hpend]; simp
  rw [checkWinConditions, if_neg hpend2]
  have hcrew0 : (aliveImpostorsOf r).length = 0 → (aliveCrewOf r).length ≠ 0 := by
    intro h1
    rcases hsome with h | h
    · exact absurd (List.length_eq_zero.mp h1) h
    · exact fun hc => h (List.length_eq_zero.mp hc)
  by_cases h1 : (aliveImpostorsOf r).length = 0
  · rw [if_pos h1]
    have hcrew := hcrew0 h1
    refine ⟨by simp [h1], ?_, ?_, ?_⟩
    · constructor
      · intro hw
        simp at hw
      · intro hle
        exfalso
        omega
    · rintro ⟨_, hle⟩
      omega
    · intro hi _
      exact absurd h1 hi
  · rw [if_neg h1]
    by_cases h2 : (aliveCrewOf r).length ≤ (aliveImpostorsOf r).length
    · rw [if_pos h2]
      refine ⟨by simp [h1], by simp [h2], ?_, ?_⟩
      · rintro ⟨h0, _⟩
        exact h1 h0
      · intro _ hnle
        exact absurd h2 hnle
    · rw [if_neg h2]
      refine ⟨by simp [h1], by simp [h2], ?_, ?_⟩
      · rintro ⟨h0, _⟩
        exact h1 h0
      · intro _ _
        rfl

/-- Witness for C2 at a concrete mid-game room: one impostor and three
crew members alive, so neither win condition holds and the evaluator
changes nothing. -/
theorem checkWinConditions_spec_witness :
    roomVotingEx.pendingImpostorGuess = false ∧
    (aliveImpostorsOf roomVotingEx ≠ [] ∨ aliveCrewOf roomVotingEx ≠ []) ∧
    checkWinConditions roomVotingEx = (roomVotingEx, none) :=
  ⟨rfl, by decide,
    (checkWinConditions_spec roomVotingEx rfl (by decide)).2.2.2 (by decide) (by decide)⟩


theorem disconnectRoom_pending (r : Room) (pid : String)
    (hpend : r.pendingImpostorGuess = true)
    (hid : r.eliminatedImpostorId = some pid) :
    disconnectRoom r pid =
      ((endGameAfterGuess r false).1, some (endGameAfterGuess r false).2) := by
  simp [disconnectRoom, endGameAfterGuess, hpend, hid]

/-- C4: while a guess is pending for the eliminated impostor, a submitted
guess within the length bound is compared to the secret word by
case-insensitive, whitespace-trimmed equality: a correct guess ends the
game with winner impostor, an incorrect one with winner crew, and timer
expiry or a guesser disconnect also end it with winner crew.  The witness
instantiates this with "dog" against secret word "Dog ". -/
theorem submitWordGuess_spec (r : Room) (pid : String) (w : String)
    (hpend : r.pendingImpostorGuess = true)
    (hid : r.eliminatedImpostorId = some pid)
    (hw : r.secretWord = some w) :
    (∀ g, g.length ≤ MAX_WORD_LENGTH →
      ((submitWordGuess r pid g).2 = some Winner.impostor ↔
        jsToLower (jsTrim g) = jsToLower (jsTrim w)) ∧
      ((submitWordGuess r pid g).2 = some Winner.crew ↔
        jsToLower (jsTrim g) ≠ jsToLower (jsTrim w)) ∧
      (submitWordGuess r pid g).1.phase = Phase.ended)
    ∧ (guessTimerFire r).2 = some Winner.crew
    ∧ (disconnectRoom r pid).2 = some Winner.crew := by
  refine ⟨?_, ?_, ?_⟩
  · intro g hg
    rw [submitWordGuess, hpend, hw]
    have hid2 : ¬ (r.eliminatedImpostorId ≠ some pid) := fun hne => hne hid
    rw [if_neg (by simp), if_neg hid2, if_neg (by omega)]
    by_cases hc : jsToLower (jsTrim g) = jsToLower (jsTrim ((some w).getD ""))
    · have hb : (jsToLower (jsTrim g) == jsToLower (jsTrim ((some w).getD ""))) = true := by
        rw [beq_iff_eq]
        exact hc
      refine ⟨?_, ?_, rfl⟩ <;> simp [endGameAfterGuess, hb] <;> simpa using hc
    · have hb : (jsToLower (jsTrim g) == jsToLower (jsTrim ((some w).getD ""))) = false := by
        rw [beq_eq_false_iff_ne]
        exact hc
      refine ⟨?_, ?_, rfl⟩ <;> simp [endGameAfterGuess, hb] <;> simpa using hc
  · rw [guessTimerFire, if_pos hpend]
    rfl
  · rw [disconnectRoom_pending r pid hpend hid]
    rfl

/-- Witness for C4 at end-to-end scenario C: the eliminated impostor p2
submits "dog" against secret word "Dog " and wins. -/
theorem submitWordGuess_spec_witness :
    roomGuessEx.pendingImpostorGuess = true ∧
    roomGuessEx.eliminatedImpostorId = some "p2" ∧
    roomGuessEx.secretWord = some "Dog " ∧
    (submitWordGuess roomGuessEx "p2" "dog").2 = some Winner.impostor :=
  ⟨rfl, rfl, rfl,
    (((submitWordGuess_spec roomGuessEx "p2" "Dog " rfl rfl rfl).1
      "dog" (by decide)).1).mpr (by decide)⟩

/-- C5: resolution of the guess sub-state is idempotent.  While a guess is
pending, the timer resolves it, a disconnect of the guesser resolves it,
and a valid guess submission by the guesser resolves it; every resolving
trigger clears the pending flag and the timer and sets phase ended; and
after a resolution, each of the three triggers returns the room unchanged
and declares no further winner. -/
theorem guessResolution_idempotent (r : Room)
    (hpend : r.pendingImpostorGuess = true) :
    ((applyGuessTrigger GuessTrigger.timerFire r).2.isSome = true)
    ∧ (∀ g, r.eliminatedImpostorId = some g →
        (applyGuessTrigger (GuessTrigger.disconnectT g) r).2.isSome = true ∧
        ∀ s, s.length ≤ MAX_WORD_LENGTH →
          (applyGuessTrigger (GuessTrigger.submit g s) r).2.isSome = true)
    ∧ (∀ t1 r1 w, applyGuessTrigger t1 r = (r1, some w) →
        r1.pendingImpostorGuess = false ∧ r1.guessTimeout = false ∧
        r1.phase = Phase.ended ∧
        ∀ t2, applyGuessTrigger t2 r1 = (r1, none)) := by
  have hnoop : ∀ r2 : Room, r2.pendingImpostorGuess = false → r2.phase = Phase.ended →
      ∀ t2, applyGuessTrigger t2 r2 = (r2, none) := by
    intro r2 hp2 hph2 t2
    cases t2 with
    | submit p g =>
      show submitWordGuess r2 p g = (r2, none)
      rw [submitWordGuess, hp2]
      rfl
    | timerFire =>
      show guessTimerFire r2 = (r2, none)
      rw [guessTimerFire, hp2]
      rfl
    | disconnectT p =>
      show disconnectRoom r2 p = (r2, none)
      simp [disconnectRoom, hp2, hph2]
  refine ⟨?_, ?_, ?_⟩
  · show (guessTimerFire r).2.isSome = true
    rw [guessTimerFire, if_pos hpend]
    rfl
  · intro g hg
    constructor
    · show (disconnectRoom r g).2.isSome = true
      rw [disconnectRoom_pending r g hpend hg]
      rfl
    · intro s hs
      show (submitWordGuess r g s).2.isSome = true
      rw [submitWordGuess, hpend]
      have hid2 : ¬ (r.eliminatedImpostorId ≠ some g) := fun hne => hne hg
      rw [if_neg (by simp), if_neg hid2, if_neg (by omega)]
      rfl
  · intro t1 r1 w h
    cases t1 with
    | submit p g =>
      simp only [applyGuessTrigger, submitWordGuess] at h
      by_cases c1 : (!r.pendingImpostorGuess) = true
      · rw [if_pos c1] at h
        simp [Prod.ext_iff] at h
      · rw [if_neg c1] at h
        by_cases c2 : r.eliminatedImpostorId ≠ some p
        · rw [if_pos c2] at h
          simp [Prod.ext_iff] at h
        · rw [if_neg c2] at h
          by_cases c3 : MAX_WORD_LENGTH < g.length
          · rw [if_pos c3] at h
            simp [Prod.ext_iff] at h
          · rw [if_neg c3] at h
            injection h with h1 h2
            rw [← h1]
            exact ⟨rfl, rfl, rfl, hnoop _ rfl rfl⟩
    | timerFire =>
      simp only [applyGuessTrigger, guessTimerFire] at h
      by_cases c1 : r.pendingImpostorGuess = true
      · rw [if_pos c1] at h
        injection h with h1 h2
        rw [← h1]
        exact ⟨rfl, rfl, rfl, hnoop _ rfl rfl⟩
      · rw [if_neg c1] at h
        simp [Prod.ext_iff] at h
    | disconnectT p =>
      simp only [applyGuessTrigger, disconnectRoom] at h
      by_cases c1 : r.pendingImpostorGuess = true ∧ r.eliminatedImpostorId = some p
      · rw [if_pos c1] at h
        rw [if_neg (show ¬ ((endGameAfterGuess r false).1.phase = Phase.lobby) by
          rw [show (endGameAfterGuess r false).1.phase = Phase.ended from rfl]
          simp)] at h
        injection h with h1 h2
        rw [← h1]
        exact ⟨rfl, rfl, rfl, hnoop _ rfl rfl⟩
      · rw [if_neg c1] at h
        by_cases c2 : r.phase = Phase.lobby
        · rw [if_pos c2] at h
          simp [Prod.ext_iff] at h
        · rw [if_neg c2] at h
          simp [Prod.ext_iff] at h

/-- Witness for C5: the concrete pending-guess room is resolved by the
timer trigger. -/
theorem guessResolution_idempotent_witness :
    roomGuessEx.pendingImpostorGuess = true ∧
    (applyGuessTrigger GuessTrigger.timerFire roomGuessEx).2.isSome = true :=
  ⟨rfl, (guessResolution_idempotent roomGuessEx rfl).1⟩

/-! ### Projection lemmas for the step function and the host invariant -/

theorem checkWinConditions_phase (r : Room) :
    (checkWinConditions r).1.phase = r.phase ∨
    (checkWinConditions r).1.phase = Phase.ended := by
  rw [checkWinConditions]
  split_ifs <;> simp

theorem checkWinConditions_hostId (r : Room) :
    (checkWinConditions r).1.hostId = r.hostId := by
  rw [checkWinConditions]
  split_ifs <;> rfl

theorem tallyVotes_phase (r : Room) :
    (tallyVotes r).1.phase = Phase.results ∨
    (tallyVotes r).1.phase = Phase.ended := by
  rw [tallyVotes]
  rcases (tallyElimPair r).2 with _ | e
  · rcases checkWinConditions_phase
      { r with players := (tallyElimPair r).1, phase := Phase.results } with h | h
    · exact Or.inl h
    · exact Or.inr h
  · simp only []
    split
    · exact Or.inl rfl
    · rcases checkWinConditions_phase
        { r with players := (tallyElimPair r).1, phase := Phase.results } with h | h
      · exact Or.inl h
      · exact Or.inr h

theorem tallyVotes_hostId (r : Room) :
    (tallyVotes r).1.hostId = r.hostId := by
  rw [tallyVotes]
  rcases (tallyElimPair r).2 with _ | e
  · exact checkWinConditions_hostId _
  · simp only []
    split
    · rfl
    · exact checkWinConditions_hostId _

theorem tallyVotes_votes_field (r : Room) : (tallyVotes r).1.votes = r.votes := by
  rw [tallyVotes]
  rcases (tallyElimPair r).2 with _ | e
  · exact checkWinConditions_votes _
  · simp only []
    split
    · rfl
    · exact checkWinConditions_votes _

theorem tallyElimPair_sig (r : Room) :
    (tallyElimPair r).1.map (fun p => (p.id, p.isHost)) =
      r.players.map (fun p => (p.id, p.isHost)) := by
  rw [tallyElimPair]
  split
  · split_ifs
    · split
      · exact setEliminatedFirst_map_hostSig r.players _
      · rfl
    · rfl
  · rfl

theorem hostFlagIds_eq_of_sig (ps qs : List Player)
    (hsig : ps.map (fun p => (p.id, p.isHost)) = qs.map (fun p => (p.id, p.isHost))) :
    (ps.filter (fun p => p.isHost)).map (fun p => p.id) =
      (qs.filter (fun p => p.isHost)).map (fun p => p.id) := by
  have h1 : ∀ rs : List Player, (rs.filter (fun p => p.isHost)).map (fun p => p.id) =
      ((rs.map (fun p => (p.id, p.isHost))).filter (fun x => x.2)).map (fun x => x.1) := by
    intro rs
    rw [List.filter_map, List.map_map]
    rfl
  rw [h1, h1, hsig]

theorem map_resetElim_sig (ps : List Player) :
    (ps.map (fun p => { p with eliminated := false })).map (fun p => (p.id, p.isHost)) =
      ps.map (fun p => (p.id, p.isHost)) := by
  rw [List.map_map]
  rfl

theorem tallyVotes_hostInv (r : Room) (hinv : hostInv r = true) :
    hostInv (tallyVotes r).1 = true := by
  rw [hostInv, tallyVotes_players, tallyVotes_hostId,
    hostFlagIds_eq_of_sig _ _ (tallyElimPair_sig r)]
  rw [hostInv] at hinv
  exact hinv

theorem hostInv_filter_kick (r : Room) (t : String) (hinv : hostInv r = true)
    (ht : t ≠ r.hostId) :
    (((r.players.filter (fun p => !(p.id == t))).filter
        (fun p => p.isHost)).map (fun p => p.id)) = [r.hostId] := by
  rw [hostInv, beq_iff_eq] at hinv
  have hcomm : (r.players.filter (fun p => !(p.id == t))).filter (fun p => p.isHost) =
      (r.players.filter (fun p => p.isHost)).filter (fun p => !(p.id == t)) := by
    rw [List.filter_filter, List.filter_filter]
    apply List.filter_congr
    intro a _
    rw [Bool.and_comm]
  rw [hcomm]
  rcases hfil : r.players.filter (fun p => p.isHost) with _ | ⟨h, rest⟩
  · rw [hfil] at hinv
    simp at hinv
  · rw [hfil] at hinv
    rcases rest with _ | ⟨h2, rest2⟩
    · simp only [List.map_cons, List.map_nil] at hinv
      have hhid : h.id = r.hostId := by injection hinv
      have hcond : (!(h.id == t)) = true := by
        rw [hhid]
        simp only [Bool.not_eq_true']
        rw [beq_eq_false_iff_ne]
        exact fun he => ht he.symm
      rw [hfil, List.filter_cons, if_pos hcond]
      simp [hhid]
    · simp at hinv

/-- From an active phase (discussion, voting or results) no single event
can move a room to the lobby phase. -/
theorem step_no_lobby (r : Room) (code : String)
    (hph : r.phase = Phase.discussion ∨ r.phase = Phase.voting ∨
      r.phase = Phase.results) :
    ∀ ev : GEvent, (step ev code r).1.phase ≠ Phase.lobby := by
  have hnl : r.phase ≠ Phase.lobby := by
    rcases hph with h | h | h <;> rw [h] <;> simp
  have hne : r.phase ≠ Phase.ended := by
    rcases hph with h | h | h <;> rw [h] <;> simp
  have htv : ∀ r2 : Room, (tallyVotes r2).1.phase ≠ Phase.lobby := by
    intro r2
    rcases tallyVotes_phase r2 with h | h <;> rw [h] <;> simp
  intro ev
  cases ev with
  | reconnectEv p c n => exact hnl
  | setImpostorCountEv p n =>
    show (setImpostorCount r p n).phase ≠ _
    rw [setImpostorCount]
    split_ifs <;> exact hnl
  | selectModeEv p m =>
    show (selectMode r p m).phase ≠ _
    rw [selectMode]
    split_ifs <;> exact hnl
  | selectCategoryEv p c =>
    show (selectCategory r p c).phase ≠ _
    rw [selectCategory]
    split_ifs <;> first
      | exact hnl
      | (split <;> exact hnl)
  | submitCustomWordsEv p i =>
    show (submitCustomWords r p i).phase ≠ _
    rw [submitCustomWords]
    split_ifs <;> exact hnl
  | joinSessionEv p n =>
    show (joinSession r p n).phase ≠ _
    rw [joinSession]
    split_ifs <;> exact hnl
  | startGameEv p wi c1 c2 =>
    show ((startGame r p wi c1 c2).getD r).phase ≠ _
    rw [startGame]
    split_ifs <;> exact hnl
  | submitWordGuessEv p g =>
    show (submitWordGuess r p g).1.phase ≠ _
    rw [submitWordGuess]
    split_ifs <;> first
      | exact hnl
      | (show Phase.ended ≠ Phase.lobby; simp)
  | requestStartVotingEv p =>
    show (requestStartVoting r p).phase ≠ _
    rw [requestStartVoting]
    split_ifs <;> first
      | exact hnl
      | (show Phase.voting ≠ Phase.lobby; simp)
  | requestNextRoundEv p =>
    show (requestNextRound r p).phase ≠ _
    rw [requestNextRound]
    split_ifs <;> first
      | exact hnl
      | (show Phase.discussion ≠ Phase.lobby; simp)
  | requestEndVotingEv p =>
    show (requestEndVoting r p).1.phase ≠ _
    rw [requestEndVoting]
    split_ifs
    · exact hnl
    · exact hnl
    · exact htv r
  | requestPlayAgainEv sp sc pc pp =>
    show (requestPlayAgainRoom code r sp sc pc pp).phase ≠ _
    rw [requestPlayAgainRoom]
    rcases jsOr pc sc with _ | c
    · exact hnl
    · simp only []
      split_ifs <;> first
        | exact hnl
        | (rcases jsOr pp sp with _ | p
           · exact hnl
           · simp only []
             split_ifs <;> exact hnl)
  | kickPlayerEv p t =>
    show (kickPlayer r p t).1.phase ≠ _
    rw [kickPlayer]
    split_ifs <;> first
      | exact hnl
      | (split
         · exact hnl
         · simp only []
           split_ifs
           · rcases checkWinConditions_phase { r with
               players := r.players.filter (fun p_1 => !(p_1.id == t)),
               roles := r.roles.filter (fun e => !(e.1 == t)),
               votes := r.votes.filter (fun v => !(v.1 == t)),
               turnOrder := r.turnOrder.filter (fun t_1 => !(t_1.1 == t)) } with h | h
             · rw [h]
               exact hnl
             · rw [h]
               simp
           · exact hnl)
  | submitVoteEv p t =>
    show (submitVote r p t).1.phase ≠ _
    rw [submitVote]
    split_ifs <;> first
      | exact hnl
      | (simp only []
         split_ifs
         · exact htv _
         · exact hnl)
  | disconnectEv p =>
    show (disconnectRoom r p).1.phase ≠ _
    simp only [disconnectRoom]
    by_cases c1 : r.pendingImpostorGuess = true ∧ r.eliminatedImpostorId = some p
    · rw [if_pos c1]
      rw [if_neg (show ¬((endGameAfterGuess r false).1.phase = Phase.lobby) by
        rw [show (endGameAfterGuess r false).1.phase = Phase.ended from rfl]
        simp)]
      show Phase.ended ≠ Phase.lobby
      simp
    · rw [if_neg c1]
      rw [if_neg (show ¬(r.phase = Phase.lobby) from hnl)]
      exact hnl
  | guessTimerFireEv =>
    show (guessTimerFire r).1.phase ≠ _
    rw [guessTimerFire]
    split_ifs
    · show Phase.ended ≠ Phase.lobby
      simp
    · exact hnl

/-- C6 counterexample: the negation of the claimed end-round-early action
on the concrete mid-discussion room.  One instance of every one of the
sixteen inbound event kinds the server dispatches — each issued with the
host's identity and payloads where relevant, including the play-again
request, the only caller of the lobby reset — leaves the room out of the
lobby phase, so no available action performs the claimed mid-discussion
hard reset to lobby.  (The amended theorem states this for every event
and payload.) -/
theorem endRoundEarly_counterexample :
    ((step (GEvent.reconnectEv "p1" "ABCD" "Alice")
        "ABCD" roomDiscussionEx).1.phase == Phase.lobby) = false
    ∧ ((step (GEvent.setImpostorCountEv "p1" 2)
        "ABCD" roomDiscussionEx).1.phase == Phase.lobby) = false
    ∧ ((step (GEvent.selectModeEv "p1" "custom")
        "ABCD" roomDiscussionEx).1.phase == Phase.lobby) = false
    ∧ ((step (GEvent.selectCategoryEv "p1" "Animals")
        "ABCD" roomDiscussionEx).1.phase == Phase.lobby) = false
    ∧ ((step (GEvent.submitCustomWordsEv "p1" "apple,banana,cherry,mango,pear")
        "ABCD" roomDiscussionEx).1.phase == Phase.lobby) = false
    ∧ ((step (GEvent.joinSessionEv "p9" "Eve")
        "ABCD" roomDiscussionEx).1.phase == Phase.lobby) = false
    ∧ ((step (GEvent.startGameEv "p1" 0 [1, 2, 3] [3, 2, 1])
        "ABCD" roomDiscussionEx).1.phase == Phase.lobby) = false
    ∧ ((step (GEvent.submitWordGuessEv "p2" "dog")
        "ABCD" roomDiscussionEx).1.phase == Phase.lobby) = false
    ∧ ((step (GEvent.requestStartVotingEv "p1")
        "ABCD" roomDiscussionEx).1.phase == Phase.lobby) = false
    ∧ ((step (GEvent.requestNextRoundEv "p1")
        "ABCD" roomDiscussionEx).1.phase == Phase.lobby) = false
    ∧ ((step (GEvent.requestEndVotingEv "p1")
        "ABCD" roomDiscussionEx).1.phase == Phase.lobby) = false
    ∧ ((step (GEvent.requestPlayAgainEv
          (some "p1") (some "ABCD") (some "ABCD") (some "p1"))
        "ABCD" roomDiscussionEx).1.phase == Phase.lobby) = false
    ∧ ((step (GEvent.kickPlayerEv "p1" "p2")
        "ABCD" roomDiscussionEx).1.phase == Phase.lobby) = false
    ∧ ((step (GEvent.submitVoteEv "p3" "p2")
        "ABCD" roomDiscussionEx).1.phase == Phase.lobby) = false
    ∧ ((step (GEvent.disconnectEv "p1")
        "ABCD" roomDiscussionEx).1.phase == Phase.lobby) = false
    ∧ ((step GEvent.guessTimerFireEv
        "ABCD" roomDiscussionEx).1.phase == Phase.lobby) = false := by
  decide

/-- C6 amended: the server has no end-round-early action.  From any
active phase (discussion, voting or results) no inbound event moves the
room to the lobby phase, and the play-again request — the only caller of
the lobby reset — leaves an active-phase room unchanged because it
requires phase exactly ended.  The reset routine itself, when it does
run, returns the room to lobby clearing roles, secret word, votes,
pending-guess state and every eliminated flag, without declaring a
winner. -/
theorem endRoundEarly_amended (r : Room) (code : String)
    (hph : r.phase = Phase.discussion ∨ r.phase = Phase.voting ∨
      r.phase = Phase.results) :
    (∀ ev : GEvent, (step ev code r).1.phase ≠ Phase.lobby)
    ∧ (∀ sp sc pc pp, requestPlayAgainRoom code r sp sc pc pp = r)
    ∧ ((resetRoomForPlayAgain r).phase = Phase.lobby ∧
        (resetRoomForPlayAgain r).roles = [] ∧
        (resetRoomForPlayAgain r).secretWord = none ∧
        (resetRoomForPlayAgain r).votes = [] ∧
        (resetRoomForPlayAgain r).pendingImpostorGuess = false ∧
        (resetRoomForPlayAgain r).guessTimeout = false ∧
        ∀ p ∈ (resetRoomForPlayAgain r).players, p.eliminated = false) := by
  have hne : r.phase ≠ Phase.ended := by
    rcases hph with h | h | h <;> rw [h] <;> simp
  refine ⟨step_no_lobby r code hph, ?_, rfl, rfl, rfl, rfl, rfl, rfl, ?_⟩
  · intro sp sc pc pp
    rw [requestPlayAgainRoom]
    rcases jsOr pc sc with _ | c
    · rfl
    · simp only []
      split_ifs <;> first
        | rfl
        | (rcases jsOr pp sp with _ | p
           · rfl
           · simp only []
             split_ifs <;> rfl)
  · intro p hp
    rw [resetRoomForPlayAgain] at hp
    simp only [] at hp
    obtain ⟨q, _, hq⟩ := List.mem_map.mp hp
    rw [← hq]

/-- Witness for C6 amended: in the concrete discussion-phase room, a
play-again request with full host credentials still does not move the
room to lobby. -/
theorem endRoundEarly_amended_witness :
    (roomDiscussionEx.phase = Phase.discussion ∨
      roomDiscussionEx.phase = Phase.voting ∨
      roomDiscussionEx.phase = Phase.results) ∧
    (step (GEvent.requestPlayAgainEv (some "p1") (some "ABCD") (some "ABCD") (some "p1"))
        "ABCD" roomDiscussionEx).1.phase ≠ Phase.lobby :=
  ⟨Or.inl rfl, (endRoundEarly_amended roomDiscussionEx "ABCD" (Or.inl rfl)).1 _⟩

theorem mem_setVote (votes : List (String × String)) (v t : String)
    (e : String × String) (h : e ∈ setVote votes v t) :
    e ∈ votes ∨ e = (v, t) := by
  rw [setVote] at h
  by_cases hc : votes.any (fun x => x.1 == v) = true
  · rw [if_pos hc] at h
    obtain ⟨a, ha, hae⟩ := List.mem_map.mp h
    by_cases hav : (a.1 == v) = true
    · rw [if_pos hav] at hae
      exact Or.inr hae.symm
    · rw [if_neg hav] at hae
      exact Or.inl (hae ▸ ha)
  · rw [if_neg hc] at h
    rcases List.mem_append.mp h with h1 | h1
    · exact Or.inl h1
    · exact Or.inr (List.mem_singleton.mp h1)

/-- C7 counterexample: the claimed votes-map invariant (all entries name
non-eliminated voters and targets) holds in the concrete voting room but
is violated right after tallyVotes runs, because the tally sets the
eliminated flag without removing the ballots that reference the
eliminated player. -/
theorem voteInv_tally_counterexample :
    voteInv roomVotingEx = true ∧ voteInv (tallyVotes roomVotingEx).1 = false := by
  constructor <;> decide

/-- C7 amended: ballots are valid at the moment they are recorded and
stale ballots are ignored, but the invariant is not preserved by the
tally.  Precisely: every votes entry present after a submit-vote either
existed before or is the just-validated ballot of a non-eliminated voter
for a non-eliminated target; the ballot map is empty right after the host
starts voting; the play-again reset clears it; the tally never changes
the ballot map itself; and ballots whose target is not a non-eliminated
member contribute nothing to the announced tally results. -/
theorem voteInv_amended (r : Room)
    (hnd : (r.players.map (fun p => p.id)).Nodup) :
    (∀ voterId targetId, ∀ e ∈ (submitVote r voterId targetId).1.votes,
        e ∈ r.votes ∨
        (e = (voterId, targetId) ∧ isValidVoteTarget r voterId targetId = true))
    ∧ (∀ pid, r.hostId = pid → r.phase = Phase.discussion →
        (requestStartVoting r pid).votes = [])
    ∧ (resetRoomForPlayAgain r).votes = []
    ∧ (tallyVotes r).1.votes = r.votes
    ∧ (tallyVotes { r with
        votes := r.votes.filter (fun v => (alivePlayers r).any (fun p => p.id == v.2)) }).2 =
        (tallyVotes r).2 := by
  refine ⟨?_, ?_, rfl, tallyVotes_votes_field r, ?_⟩
  · intro voterId targetId e he
    rw [submitVote] at he
    by_cases c1 : r.phase ≠ Phase.voting
    · rw [if_pos c1] at he
      exact Or.inl he
    · rw [if_neg c1] at he
      by_cases c2 : (!(isValidVoteTarget r voterId targetId)) = true
      · rw [if_pos c2] at he
        exact Or.inl he
      · rw [if_neg c2] at he
        simp only [] at he
        have hval : isValidVoteTarget r voterId targetId = true := by
          simpa using c2
        have hmem : e ∈ setVote r.votes voterId targetId := by
          by_cases c3 : (alivePlayers { r with
              votes := setVote r.votes voterId targetId }).length ≤
              (setVote r.votes voterId targetId).length
          · rw [if_pos c3] at he
            rw [tallyVotes_votes_field] at he
            exact he
          · rw [if_neg c3] at he
            exact he
        rcases mem_setVote r.votes voterId targetId e hmem with h | h
        · exact Or.inl h
        · exact Or.inr ⟨h, hval⟩
  · intro pid h1 h2
    rw [requestStartVoting, if_neg (by rw [h1]; simp), if_neg (by rw [h2]; simp)]
  · exact (tallyVotes_votes_congr r _ (voteEntries_filter_alive r hnd)).1

/-- Witness for C7 amended, at the concrete voting room: a fresh ballot
from p2 for p1 either already existed or is the validated new entry. -/
theorem voteInv_amended_witness :
    (roomVotingEx.players.map (fun p => p.id)).Nodup ∧
    (∀ e ∈ (submitVote roomVotingEx "p2" "p1").1.votes,
      e ∈ roomVotingEx.votes ∨
      (e = ("p2", "p1") ∧ isValidVoteTarget roomVotingEx "p2" "p1" = true)) :=
  ⟨by decide, (voteInv_amended roomVotingEx (by decide)).1 "p2" "p1"⟩

theorem hostInv_checkWin (r : Room) :
    hostInv (checkWinConditions r).1 = hostInv r := by
  rw [hostInv, hostInv, checkWinConditions_players, checkWinConditions_hostId]

/-- C8 counterexample: the host invariant (exactly one host-flagged
player, carrying the room's host identity) holds in the concrete lobby
room but is destroyed when the host disconnects while another player
remains: the room keeps hostId p1 although p1 is no longer a member, and
no remaining player carries the host flag. -/
theorem hostInv_disconnect_counterexample :
    hostInv roomLobbyEx = true ∧
    hostInv (step (GEvent.disconnectEv "p1") "ABCD" roomLobbyEx).1 = false := by
  constructor <;> decide

theorem startGame_inv (r : Room) (p : String) (wi : Nat) (c1 c2 : List Nat)
    (r' : Room) (h : startGame r p wi c1 c2 = some r') :
    ∃ wordList,
      wordSource r = some wordList ∧
      r.hostId = p ∧ r.phase = Phase.lobby ∧ 2 ≤ r.players.length ∧
      MIN_IMPOSTORS ≤ effImpostorCount r ∧
      effImpostorCount r < r.players.length ∧
      r' = { r with
        started := true,
        secretWord := wordList.get? (wi % wordList.length),
        pendingImpostorGuess := false,
        eliminatedImpostorId := none,
        players := r.players.map (fun q => { q with eliminated := false }),
        roles := assignRolesFrom r.roles (effImpostorCount r) 0 (shuffleArray r.players c1),
        turnOrder := (shuffleArray r.players c2).map (fun q => (q.id, q.name)),
        phase := Phase.discussion } := by
  rw [startGame] at h
  split_ifs at h with g1 g2 g3 g4 g5 <;> try exact Option.noConfusion h
  rcases hws : wordSource r with _ | wl
  · rw [hws] at h
    simp at h
  · rw [hws] at h
    simp only [Option.some.injEq] at h
    exact ⟨wl, rfl, not_not.mp g1, not_not.mp g2, by omega, by omega, by omega, h.symm⟩


/-- C8 amended: the host invariant is preserved by every inbound event
except a lobby-phase disconnect of the host themselves (the case of the
counterexample; the code never reassigns hostId).  Join adds non-host
players, kicks can never remove the host (the host cannot kick
themselves), eliminations and resets only toggle eliminated flags, and
non-host or mid-game disconnects leave the host membership intact. -/
theorem hostInv_amended (r : Room) (code : String) (ev : GEvent)
    (hinv : hostInv r = true)
    (hex : ∀ pid, ev = GEvent.disconnectEv pid →
      (pid ≠ r.hostId ∨ r.phase ≠ Phase.lobby)) :
    hostInv (step ev code r).1 = true := by
  cases ev with
  | reconnectEv p c n => exact hinv
  | setImpostorCountEv p n =>
    show hostInv (setImpostorCount r p n) = true
    rw [setImpostorCount]
    split_ifs <;> exact hinv
  | selectModeEv p m =>
    show hostInv (selectMode r p m) = true
    rw [selectMode]
    split_ifs <;> exact hinv
  | selectCategoryEv p c =>
    show hostInv (selectCategory r p c) = true
    rw [selectCategory]
    split_ifs <;> first
      | exact hinv
      | (split <;> exact hinv)
  | submitCustomWordsEv p i =>
    show hostInv (submitCustomWords r p i) = true
    rw [submitCustomWords]
    split_ifs <;> first
      | exact hinv
      | (simp only []
         split_ifs <;> exact hinv)
  | joinSessionEv p n =>
    show hostInv (joinSession r p n) = true
    rw [joinSession]
    split_ifs <;> first
      | exact hinv
      | (rw [hostInv] at hinv ⊢
         have hfil : (r.players ++ [(⟨p, jsTrim n, false, false⟩ : Player)]).filter
             (fun q => q.isHost) = r.players.filter (fun q => q.isHost) := by
           rw [List.filter_append]
           simp
         rw [hfil]
         exact hinv)
  | startGameEv p wi c1 c2 =>
    show hostInv ((startGame r p wi c1 c2).getD r) = true
    rcases hsg : startGame r p wi c1 c2 with _ | r'
    · exact hinv
    · obtain ⟨wl, _, _, _, _, _, _, hr⟩ := startGame_inv r p wi c1 c2 r' hsg
      rw [hr]
      rw [hostInv]
      show (((r.players.map (fun q => { q with eliminated := false })).filter
        (fun q => q.isHost)).map (fun q => q.id) == [r.hostId]) = true
      rw [hostFlagIds_eq_of_sig _ _ (map_resetElim_sig r.players)]
      rw [hostInv] at hinv
      exact hinv
  | submitWordGuessEv p g =>
    show hostInv (submitWordGuess r p g).1 = true
    rw [submitWordGuess]
    split_ifs <;> exact hinv
  | requestStartVotingEv p =>
    show hostInv (requestStartVoting r p) = true
    rw [requestStartVoting]
    split_ifs <;> exact hinv
  | requestNextRoundEv p =>
    show hostInv (requestNextRound r p) = true
    rw [requestNextRound]
    split_ifs <;> exact hinv
  | requestEndVotingEv p =>
    show hostInv (requestEndVoting r p).1 = true
    rw [requestEndVoting]
    split_ifs <;> first
      | exact hinv
      | exact tallyVotes_hostInv r hinv
  | requestPlayAgainEv sp sc pc pp =>
    show hostInv (requestPlayAgainRoom code r sp sc pc pp) = true
    rw [requestPlayAgainRoom]
    rcases jsOr pc sc with _ | c
    · exact hinv
    · simp only []
      split_ifs <;> first
        | exact hinv
        | (rcases jsOr pp sp with _ | p
           · exact hinv
           · simp only []
             split_ifs <;> first
               | exact hinv
               | (show hostInv (resetRoomForPlayAgain r) = true
                  rw [hostInv]
                  show (((r.players.map (fun q => { q with eliminated := false })).filter
                    (fun q => q.isHost)).map (fun q => q.id) == [r.hostId]) = true
                  rw [hostFlagIds_eq_of_sig _ _ (map_resetElim_sig r.players)]
                  rw [hostInv] at hinv
                  exact hinv))
  | kickPlayerEv p t =>
    show hostInv (kickPlayer r p t).1 = true
    rw [kickPlayer]
    split_ifs with g1 g2
    · exact hinv
    · exact hinv
    · have ht : t ≠ r.hostId := by
        intro he
        exact g2 (by rw [he, not_not.mp g1])
      split
      · exact hinv
      · simp only []
        split_ifs
        · rw [hostInv_checkWin, hostInv]
          show ((((r.players.filter (fun q => !(q.id == t))).filter
            (fun q => q.isHost)).map (fun q => q.id)) == [r.hostId]) = true
          rw [hostInv_filter_kick r t hinv ht]
          simp
        · rw [hostInv]
          show ((((r.players.filter (fun q => !(q.id == t))).filter
            (fun q => q.isHost)).map (fun q => q.id)) == [r.hostId]) = true
          rw [hostInv_filter_kick r t hinv ht]
          simp
  | submitVoteEv p t =>
    show hostInv (submitVote r p t).1 = true
    rw [submitVote]
    split_ifs <;> first
      | exact hinv
      | (simp only []
         split_ifs
         · exact tallyVotes_hostInv _ hinv
         · exact hinv)
  | disconnectEv p =>
    show hostInv (disconnectRoom r p).1 = true
    simp only [disconnectRoom]
    by_cases c1 : r.pendingImpostorGuess = true ∧ r.eliminatedImpostorId = some p
    · rw [if_pos c1]
      rw [if_neg (show ¬((endGameAfterGuess r false).1.phase = Phase.lobby) by
        rw [show (endGameAfterGuess r false).1.phase = Phase.ended from rfl]
        simp)]
      exact hinv
    · rw [if_neg c1]
      by_cases c2 : r.phase = Phase.lobby
      · rw [if_pos c2]
        have hp : p ≠ r.hostId := by
          rcases hex p rfl with h | h
          · exact h
          · exact absurd c2 h
        rw [hostInv]
        show ((((r.players.filter (fun q => !(q.id == p))).filter
          (fun q => q.isHost)).map (fun q => q.id)) == [r.hostId]) = true
        rw [hostInv_filter_kick r p hinv hp]
        simp
      · rw [if_neg c2]
        exact hinv
  | guessTimerFireEv =>
    show hostInv (guessTimerFire r).1 = true
    rw [guessTimerFire]
    split_ifs <;> exact hinv

/-- Witness for C8 amended: a lobby disconnect of the non-host player p2
preserves the host invariant of the concrete lobby room. -/
theorem hostInv_amended_witness :
    hostInv roomLobbyEx = true ∧
    hostInv (step (GEvent.disconnectEv "p2") "ABCD" roomLobbyEx).1 = true :=
  ⟨by decide,
    hostInv_amended roomLobbyEx "ABCD" (GEvent.disconnectEv "p2") (by decide)
      (by
        intro pid h
        injection h with h2
        rw [← h2]
        exact Or.inl (by decide))⟩

/-! ### C3: Fisher–Yates permutation and role counting -/

theorem cons_set_perm : ∀ (xs : List α) (j : Nat) (x y : α),
    xs.get? j = some y → (y :: xs.set j x).Perm (x :: xs) := by
  intro xs
  induction xs with
  | nil => intro j x y h; exact Option.noConfusion h
  | cons a t ih =>
    intro j x y h
    cases j with
    | zero =>
      injection h with h1
      subst h1
      exact List.Perm.swap x a t
    | succ j =>
      exact ((List.Perm.swap a y _).trans
        (List.Perm.cons a (ih j x y h))).trans (List.Perm.swap x a t)

theorem set_set_perm : ∀ (l : List α) (i j : Nat) (a b : α),
    l.get? i = some a → l.get? j = some b → ((l.set i b).set j a).Perm l := by
  intro l
  induction l with
  | nil => intro i j a b ha _; exact Option.noConfusion ha
  | cons x t ih =>
    intro i j a b ha hb
    cases i with
    | zero =>
      cases j with
      | zero =>
        injection ha with ha1
        subst ha1
        exact List.Perm.refl _
      | succ m =>
        injection ha with ha1
        subst ha1
        exact cons_set_perm t m x b hb
    | succ n =>
      cases j with
      | zero =>
        injection hb with hb1
        subst hb1
        exact cons_set_perm t n x a ha
      | succ m =>
        exact List.Perm.cons x (ih n m a b ha hb)

theorem listSwap_perm (l : List α) (i j : Nat) : (listSwap l i j).Perm l := by
  rw [listSwap]
  rcases ha : l.get? i with _ | a
  · rcases hb : l.get? j with _ | b <;> exact List.Perm.refl l
  · rcases hb : l.get? j with _ | b
    · exact List.Perm.refl l
    · exact set_set_perm l i j a b ha hb

theorem shuffleAux_perm : ∀ (js : List Nat) (i : Nat) (arr : List α),
    (shuffleAux arr i js).Perm arr := by
  intro js
  induction js with
  | nil =>
    intro i arr
    cases i with
    | zero => exact List.Perm.refl arr
    | succ k => exact List.Perm.refl arr
  | cons j rest ih =>
    intro i arr
    cases i with
    | zero => exact List.Perm.refl arr
    | succ k =>
      exact (ih k (listSwap arr (k + 1) (j % (k + 2)))).trans
        (listSwap_perm arr (k + 1) (j % (k + 2)))

theorem shuffleArray_perm (arr : List α) (js : List Nat) :
    (shuffleArray arr js).Perm arr :=
  shuffleAux_perm js (arr.length - 1) arr

theorem lookup_cons_self (k : String) (v : Role) (es : List (String × Role)) :
    List.lookup k ((k, v) :: es) = some v := by
  simp [List.lookup]

theorem lookup_cons_ne (a k : String) (v : Role) (es : List (String × Role))
    (h : a ≠ k) : List.lookup a ((k, v) :: es) = List.lookup a es := by
  have hb : (a == k) = false := beq_eq_false_iff_ne.mpr h
  simp [List.lookup, hb]

theorem lookup_assignRolesFrom_notmem (pid : String) : ∀ (ps : List Player)
    (roles : List (String × Role)) (k i : Nat),
    pid ∉ ps.map (fun q => q.id) →
    List.lookup pid (assignRolesFrom roles k i ps) = List.lookup pid roles := by
  intro ps
  induction ps with
  | nil => intro roles k i _; rfl
  | cons p t ih =>
    intro roles k i hmem
    rw [List.map_cons, List.mem_cons, not_or] at hmem
    show List.lookup pid
        (assignRolesFrom
          ((p.id, if i < k then Role.impostor else Role.crew) :: roles) k (i + 1) t)
      = List.lookup pid roles
    rw [ih _ k (i + 1) hmem.2]
    exact lookup_cons_ne pid p.id _ roles hmem.1

theorem countP_assignRolesFrom_imp : ∀ (ps : List Player)
    (roles : List (String × Role)) (k i : Nat),
    (ps.map (fun q => q.id)).Nodup →
    ps.countP (fun q =>
        List.lookup q.id (assignRolesFrom roles k i ps) == some Role.impostor)
      = min (k - i) ps.length := by
  intro ps
  induction ps with
  | nil => intro roles k i _; simp
  | cons p t ih =>
    intro roles k i hnd
    rw [List.map_cons, List.nodup_cons] at hnd
    rw [List.countP_cons, List.length_cons]
    have htail : t.countP (fun q =>
        List.lookup q.id (assignRolesFrom
          ((p.id, if i < k then Role.impostor else Role.crew) :: roles) k (i + 1) t)
        == some Role.impostor) = min (k - (i + 1)) t.length :=
      ih _ k (i + 1) hnd.2
    have hlook : List.lookup p.id (assignRolesFrom
        ((p.id, if i < k then Role.impostor else Role.crew) :: roles) k (i + 1) t)
        = some (if i < k then Role.impostor else Role.crew) := by
      rw [lookup_assignRolesFrom_notmem p.id t _ k (i + 1) hnd.1]
      exact lookup_cons_self _ _ _
    show t.countP (fun q =>
        List.lookup q.id (assignRolesFrom
          ((p.id, if i < k then Role.impostor else Role.crew) :: roles) k (i + 1) t)
        == some Role.impostor)
      + (if (List.lookup p.id (assignRolesFrom
          ((p.id, if i < k then Role.impostor else Role.crew) :: roles) k (i + 1) t)
          == some Role.impostor) then 1 else 0)
      = min (k - i) (t.length + 1)
    rw [htail, hlook]
    by_cases hik : i < k
    · rw [if_pos hik]
      have hb : ((some Role.impostor == some Role.impostor) : Bool) = true := by decide
      rw [hb, if_pos rfl]
      omega
    · rw [if_neg hik]
      have hb : ((some Role.crew == some Role.impostor) : Bool) = false := by decide
      rw [hb, if_neg Bool.false_ne_true]
      omega

theorem countP_assignRolesFrom_crew : ∀ (ps : List Player)
    (roles : List (String × Role)) (k i : Nat),
    (ps.map (fun q => q.id)).Nodup →
    ps.countP (fun q =>
        List.lookup q.id (assignRolesFrom roles k i ps) == some Role.crew)
      = ps.length - min (k - i) ps.length := by
  intro ps
  induction ps with
  | nil => intro roles k i _; simp
  | cons p t ih =>
    intro roles k i hnd
    rw [List.map_cons, List.nodup_cons] at hnd
    rw [List.countP_cons, List.length_cons]
    have htail : t.countP (fun q =>
        List.lookup q.id (assignRolesFrom
          ((p.id, if i < k then Role.impostor else Role.crew) :: roles) k (i + 1) t)
        == some Role.crew) = t.length - min (k - (i + 1)) t.length :=
      ih _ k (i + 1) hnd.2
    have hlook : List.lookup p.id (assignRolesFrom
        ((p.id, if i < k then Role.impostor else Role.crew) :: roles) k (i + 1) t)
        = some (if i < k then Role.impostor else Role.crew) := by
      rw [lookup_assignRolesFrom_notmem p.id t _ k (i + 1) hnd.1]
      exact lookup_cons_self _ _ _
    show t.countP (fun q =>
        List.lookup q.id (assignRolesFrom
          ((p.id, if i < k then Role.impostor else Role.crew) :: roles) k (i + 1) t)
        == some Role.crew)
      + (if (List.lookup p.id (assignRolesFrom
          ((p.id, if i < k then Role.impostor else Role.crew) :: roles) k (i + 1) t)
          == some Role.crew) then 1 else 0)
      = (t.length + 1) - min (k - i) (t.length + 1)
    rw [htail, hlook]
    by_cases hik : i < k
    · rw [if_pos hik]
      have hb : ((some Role.impostor == some Role.crew) : Bool) = false := by decide
      rw [hb, if_neg Bool.false_ne_true]
      omega
    · rw [if_neg hik]
      have hb : ((some Role.crew == some Role.crew) : Bool) = true := by decide
      rw [hb, if_pos rfl]
      omega

theorem startGame_success (r : Room) (p : String) (wi : Nat) (c1 c2 : List Nat)
    (wl : List String)
    (h1 : r.hostId = p) (h2 : r.phase = Phase.lobby) (h3 : 2 ≤ r.players.length)
    (h4 : MIN_IMPOSTORS ≤ effImpostorCount r)
    (h5 : effImpostorCount r < r.players.length)
    (hws : wordSource r = some wl) :
    startGame r p wi c1 c2 = some { r with
      started := true,
      secretWord := wl.get? (wi % wl.length),
      pendingImpostorGuess := false,
      eliminatedImpostorId := none,
      players := r.players.map (fun q => { q with eliminated := false }),
      roles := assignRolesFrom r.roles (effImpostorCount r) 0
        (shuffleArray r.players c1),
      turnOrder := (shuffleArray r.players c2).map (fun q => (q.id, q.name)),
      phase := Phase.discussion } := by
  rw [startGame]
  rw [if_neg (not_not_intro h1)]
  rw [if_neg (not_not_intro h2)]
  rw [if_neg (by omega : ¬r.players.length < 2)]
  rw [if_neg (by omega : ¬effImpostorCount r < MIN_IMPOSTORS)]
  rw [if_neg (by omega : ¬r.players.length ≤ effImpostorCount r)]
  rw [hws]

/-- C3: on every successful start-game transition from a lobby room with
distinct player ids (its guards enforce 1 ≤ effective impostorCount <
playerCount and a valid word source), role assignment over the first
Fisher–Yates shuffle gives exactly the effective impostorCount players
the impostor role and the remaining playerCount − impostorCount players
the crew role; the turn order is a permutation of the full pre-elimination
player set (id, name); the room enters the discussion phase; and the two
shuffles are independent: replaying the transition with any other
turn-order draw stream yields the same roles, players and secret word,
and with any other role draw stream the same turn order, players and
secret word — so turn-order position carries no information about role. -/
theorem startGame_roles_spec (r : Room) (p : String) (wi : Nat)
    (c1 c2 : List Nat) (r' : Room)
    (hnd : (r.players.map (fun q => q.id)).Nodup)
    (h : startGame r p wi c1 c2 = some r') :
    r'.players.countP
        (fun q => List.lookup q.id r'.roles == some Role.impostor)
      = effImpostorCount r
    ∧ r'.players.countP
        (fun q => List.lookup q.id r'.roles == some Role.crew)
      = r.players.length - effImpostorCount r
    ∧ r'.turnOrder.Perm (r.players.map (fun q => (q.id, q.name)))
    ∧ r'.phase = Phase.discussion
    ∧ (∀ c2', ∃ r'', startGame r p wi c1 c2' = some r'' ∧
        r''.roles = r'.roles ∧ r''.players = r'.players ∧
        r''.secretWord = r'.secretWord)
    ∧ (∀ c1', ∃ r'', startGame r p wi c1' c2 = some r'' ∧
        r''.turnOrder = r'.turnOrder ∧ r''.players = r'.players ∧
        r''.secretWord = r'.secretWord) := by
  obtain ⟨wl, hws, h1, h2, h3, h4, h5, hr⟩ := startGame_inv r p wi c1 c2 r' h
  subst hr
  have hperm1 : (shuffleArray r.players c1).Perm r.players :=
    shuffleArray_perm r.players c1
  have hndS : ((shuffleArray r.players c1).map (fun q => q.id)).Nodup :=
    ((hperm1.map (fun q => q.id)).nodup_iff).mpr hnd
  have hlenS : (shuffleArray r.players c1).length = r.players.length :=
    hperm1.length_eq
  refine ⟨?_, ?_, ?_, rfl, ?_, ?_⟩
  · show (r.players.map (fun q => { q with eliminated := false })).countP
        (fun q => List.lookup q.id
          (assignRolesFrom r.roles (effImpostorCount r) 0
            (shuffleArray r.players c1)) == some Role.impostor)
      = effImpostorCount r
    rw [List.countP_map]
    have hstep : r.players.countP
        ((fun q => List.lookup q.id
          (assignRolesFrom r.roles (effImpostorCount r) 0
            (shuffleArray r.players c1)) == some Role.impostor) ∘
          (fun q => { q with eliminated := false }))
      = (shuffleArray r.players c1).countP
        (fun q => List.lookup q.id
          (assignRolesFrom r.roles (effImpostorCount r) 0
            (shuffleArray r.players c1)) == some Role.impostor) :=
      (List.Perm.countP_eq _ hperm1).symm
    rw [hstep,
      countP_assignRolesFrom_imp (shuffleArray r.players c1) r.roles
        (effImpostorCount r) 0 hndS]
    omega
  · show (r.players.map (fun q => { q with eliminated := false })).countP
        (fun q => List.lookup q.id
          (assignRolesFrom r.roles (effImpostorCount r) 0
            (shuffleArray r.players c1)) == some Role.crew)
      = r.players.length - effImpostorCount r
    rw [List.countP_map]
    have hstep : r.players.countP
        ((fun q => List.lookup q.id
          (assignRolesFrom r.roles (effImpostorCount r) 0
            (shuffleArray r.players c1)) == some Role.crew) ∘
          (fun q => { q with eliminated := false }))
      = (shuffleArray r.players c1).countP
        (fun q => List.lookup q.id
          (assignRolesFrom r.roles (effImpostorCount r) 0
            (shuffleArray r.players c1)) == some Role.crew) :=
      (List.Perm.countP_eq _ hperm1).symm
    rw [hstep,
      countP_assignRolesFrom_crew (shuffleArray r.players c1) r.roles
        (effImpostorCount r) 0 hndS]
    omega
  · exact (shuffleArray_perm r.players c2).map (fun q => (q.id, q.name))
  · intro c2'
    exact ⟨_, startGame_success r p wi c1 c2' wl h1 h2 h3 h4 h5 hws,
      rfl, rfl, rfl⟩
  · intro c1'
    exact ⟨_, startGame_success r p wi c1' c2 wl h1 h2 h3 h4 h5 hws,
      rfl, rfl, rfl⟩

theorem startGame_roles_spec_witness :
    (roomLobbyEx.players.map (fun q => q.id)).Nodup ∧
    ∃ r', startGame roomLobbyEx "p1" 0 [1] [0] = some r' ∧
      (r'.players.countP
          (fun q => List.lookup q.id r'.roles == some Role.impostor)
        = effImpostorCount roomLobbyEx
      ∧ r'.phase = Phase.discussion) := by
  refine ⟨by decide, ?_⟩
  rcases hs : startGame roomLobbyEx "p1" 0 [1] [0] with _ | r'
  · exact absurd hs (by decide)
  · have hmain := startGame_roles_spec roomLobbyEx "p1" 0 [1] [0] r'
      (by decide) hs
    exact ⟨r', rfl, hmain.1, hmain.2.2.2.1⟩

/-! ### C9: reconnect -/

theorem lookup_cons_self' (k : String) (v : β) (es : List (String × β)) :
    List.lookup k ((k, v) :: es) = some v := by
  simp [List.lookup]

theorem lookup_cons_ne' (a k : String) (v : β) (es : List (String × β))
    (h : a ≠ k) : List.lookup a ((k, v) :: es) = List.lookup a es := by
  have hb : (a == k) = false := beq_eq_false_iff_ne.mpr h
  simp [List.lookup, hb]

theorem mem_of_lookup_eq_some' (a : String) (b : β) :
    ∀ (l : List (String × β)), List.lookup a l = some b → (a, b) ∈ l := by
  intro l
  induction l with
  | nil => intro h; exact Option.noConfusion h
  | cons e es ih =>
    obtain ⟨k, v⟩ := e
    intro h
    by_cases hk : a = k
    · subst hk
      rw [lookup_cons_self'] at h
      injection h with h
      subst h
      exact List.mem_cons_self _ _
    · rw [lookup_cons_ne' a k v es hk] at h
      exact List.mem_cons_of_mem _ (ih h)

theorem lookup_updateRoomAt (l : List (String × Room)) (c : String) (r b : Room)
    (h : List.lookup c l = some b) :
    List.lookup c (updateRoomAt l c r) = some r := by
  induction l with
  | nil => exact Option.noConfusion h
  | cons e es ih =>
    obtain ⟨k, v⟩ := e
    rw [updateRoomAt, List.map_cons]
    by_cases hk : k = c
    · subst hk
      rw [if_pos (by exact beq_self_eq_true k)]
      exact lookup_cons_self' k r _
    · rw [if_neg (by rw [beq_eq_false_iff_ne.mpr hk]; exact Bool.false_ne_true)]
      rw [lookup_cons_ne' c k v _ (fun hc => hk hc.symm)] at h
      rw [lookup_cons_ne' c k v _ (fun hc => hk hc.symm)]
      exact ih h

theorem reconnectHandler_none_of_invalid (rooms : List (String × Room))
    (pid code : String) (hv : isValidRoomCode (jsToUpper code) = false) :
    reconnectHandler rooms pid code = none := by
  rw [reconnectHandler]
  split_ifs with h0
  · rfl
  · simp only []
    split_ifs with h1
    · rfl
    · rw [hv] at h1
      exact absurd h1 (by decide)

theorem reconnectHandler_none_of_lookup (rooms : List (String × Room))
    (pid code : String)
    (hl : List.lookup (jsToUpper code) rooms = none) :
    reconnectHandler rooms pid code = none := by
  rw [reconnectHandler]
  split_ifs with h0
  · rfl
  · simp only []
    split_ifs with h1
    · rfl
    · rw [hl]

theorem reconnectHandler_none_of_find (rooms : List (String × Room))
    (pid code : String) (room : Room)
    (hl : List.lookup (jsToUpper code) rooms = some room)
    (hf : room.players.find? (fun q => q.id == pid) = none) :
    reconnectHandler rooms pid code = none := by
  rw [reconnectHandler]
  split_ifs with h0
  · rfl
  · simp only []
    split_ifs with h1
    · rfl
    · rw [hl]
      show (match room.players.find? (fun p => p.id == pid) with
        | none => none
        | some player =>
          some ({
            roomCode := jsToUpper code,
            isHost := room.hostId == pid,
            phase := room.phase,
            role := lookupRole room.roles pid,
            category := match room.mode with
              | Mode.preset => room.selectedCategory
              | Mode.custom => some "Custom",
            word := if lookupRole room.roles pid == some Role.crew
              then room.secretWord else none,
            eliminated := player.eliminated,
            pendingGuess := room.pendingImpostorGuess &&
              room.eliminatedImpostorId == some pid,
            turnOrder := room.turnOrder } : ReconnectSnapshot)) = none
      rw [hf]

theorem reconnectHandler_success (rooms : List (String × Room))
    (pid code : String) (room : Room) (player : Player)
    (hpid : pid ≠ "") (hcode : code ≠ "")
    (hv : isValidRoomCode (jsToUpper code) = true)
    (hl : List.lookup (jsToUpper code) rooms = some room)
    (hf : room.players.find? (fun q => q.id == pid) = some player) :
    reconnectHandler rooms pid code = some {
      roomCode := jsToUpper code,
      isHost := room.hostId == pid,
      phase := room.phase,
      role := lookupRole room.roles pid,
      category := match room.mode with
        | Mode.preset => room.selectedCategory
        | Mode.custom => some "Custom",
      word := if lookupRole room.roles pid == some Role.crew
        then room.secretWord else none,
      eliminated := player.eliminated,
      pendingGuess := room.pendingImpostorGuess &&
        room.eliminatedImpostorId == some pid,
      turnOrder := room.turnOrder } := by
  rw [reconnectHandler]
  rw [if_neg (by push_neg; exact ⟨hpid, hcode⟩)]
  simp only []
  rw [if_neg (by rw [hv]; exact (by decide : ¬((!true) = true)))]
  rw [hl]
  show (match room.players.find? (fun p => p.id == pid) with
    | none => none
    | some player =>
      some ({
        roomCode := jsToUpper code,
        isHost := room.hostId == pid,
        phase := room.phase,
        role := lookupRole room.roles pid,
        category := match room.mode with
          | Mode.preset => room.selectedCategory
          | Mode.custom => some "Custom",
        word := if lookupRole room.roles pid == some Role.crew
          then room.secretWord else none,
        eliminated := player.eliminated,
        pendingGuess := room.pendingImpostorGuess &&
          room.eliminatedImpostorId == some pid,
        turnOrder := room.turnOrder } : ReconnectSnapshot)) = some _
  rw [hf]

theorem disconnectRoom_id (r : Room) (pid : String)
    (hnl : r.phase ≠ Phase.lobby)
    (hnp : ¬(r.pendingImpostorGuess = true ∧ r.eliminatedImpostorId = some pid)) :
    (disconnectRoom r pid).1 = r := by
  rw [disconnectRoom]
  simp only []
  rw [if_neg hnp, if_neg hnl]

theorem reconnectHandler_lookup_congr (rooms1 rooms2 : List (String × Room))
    (pid code : String)
    (h : List.lookup (jsToUpper code) rooms1 =
      List.lookup (jsToUpper code) rooms2) :
    reconnectHandler rooms1 pid code = reconnectHandler rooms2 pid code := by
  rw [reconnectHandler, reconnectHandler]
  simp only []
  rw [h]

/-- C9: over a registry whose rooms hold only players with non-empty ids,
a reconnect succeeds exactly when the uppercased code is well formed, a
room is stored under it, and the identity is one of that room's members;
the success snapshot replays the room's current phase, the identity's
host flag, its role, the secret word exactly when its role is crew, its
elimination flag, the pending-guess flag exactly when it is the currently
pending guesser, and the current turn order; and a preceding mid-game
disconnect of that identity (outside its own pending guess) leaves the
stored room unchanged, so the snapshot restores everything exactly as it
was before the disconnection. -/
theorem reconnect_spec (rooms : List (String × Room)) (pid code : String)
    (hids : ∀ e ∈ rooms, ∀ q ∈ (e : String × Room).2.players, q.id ≠ "") :
    ((reconnectHandler rooms pid code).isSome = true ↔
      (isValidRoomCode (jsToUpper code) = true ∧
       ∃ room, List.lookup (jsToUpper code) rooms = some room ∧
         ∃ player, room.players.find? (fun q => q.id == pid) = some player))
    ∧ (∀ room player,
        List.lookup (jsToUpper code) rooms = some room →
        room.players.find? (fun q => q.id == pid) = some player →
        isValidRoomCode (jsToUpper code) = true →
        reconnectHandler rooms pid code = some {
          roomCode := jsToUpper code,
          isHost := room.hostId == pid,
          phase := room.phase,
          role := lookupRole room.roles pid,
          category := match room.mode with
            | Mode.preset => room.selectedCategory
            | Mode.custom => some "Custom",
          word := if lookupRole room.roles pid == some Role.crew
            then room.secretWord else none,
          eliminated := player.eliminated,
          pendingGuess := room.pendingImpostorGuess &&
            room.eliminatedImpostorId == some pid,
          turnOrder := room.turnOrder })
    ∧ (∀ room,
        List.lookup (jsToUpper code) rooms = some room →
        room.phase ≠ Phase.lobby →
        ¬(room.pendingImpostorGuess = true ∧
          room.eliminatedImpostorId = some pid) →
        reconnectHandler
          (updateRoomAt rooms (jsToUpper code) (disconnectRoom room pid).1)
          pid code = reconnectHandler rooms pid code) := by
  have hpid_of_find : ∀ room player,
      List.lookup (jsToUpper code) rooms = some room →
      room.players.find? (fun q => q.id == pid) = some player → pid ≠ "" := by
    intro room player hl hf hpe
    have hmem := mem_of_lookup_eq_some' (jsToUpper code) room rooms hl
    have hpmem : player ∈ room.players := List.mem_of_find?_eq_some hf
    have hpeq := List.find?_some hf
    have hpeq' : (player.id == pid) = true := hpeq
    have : player.id = pid := by rwa [beq_iff_eq] at hpeq' 
    exact hids _ hmem player hpmem (by rw [this, hpe])
  have hcode_of_valid : isValidRoomCode (jsToUpper code) = true → code ≠ "" := by
    intro hv hce
    rw [hce] at hv
    exact absurd hv (by decide)
  refine ⟨?_, ?_, ?_⟩
  · constructor
    · intro hsome
      by_cases hv : isValidRoomCode (jsToUpper code) = true
      · rcases hl : List.lookup (jsToUpper code) rooms with _ | room
        · rw [reconnectHandler_none_of_lookup rooms pid code hl] at hsome
          exact Bool.noConfusion hsome
        · rcases hf : room.players.find? (fun q => q.id == pid) with _ | player
          · rw [reconnectHandler_none_of_find rooms pid code room hl hf] at hsome
            exact Bool.noConfusion hsome
          · exact ⟨hv, room, rfl, player, hf⟩
      · have hv' : isValidRoomCode (jsToUpper code) = false := by
          rwa [Bool.not_eq_true] at hv
        rw [reconnectHandler_none_of_invalid rooms pid code hv'] at hsome
        exact Bool.noConfusion hsome
    · rintro ⟨hv, room, hl, player, hf⟩
      rw [reconnectHandler_success rooms pid code room player
        (hpid_of_find room player hl hf) (hcode_of_valid hv) hv hl hf]
      rfl
  · intro room player hl hf hv
    exact reconnectHandler_success rooms pid code room player
      (hpid_of_find room player hl hf) (hcode_of_valid hv) hv hl hf
  · intro room hl hnl hnp
    apply reconnectHandler_lookup_congr
    rw [lookup_updateRoomAt rooms (jsToUpper code) (disconnectRoom room pid).1
      room hl]
    rw [disconnectRoom_id room pid hnl hnp, hl]

theorem reconnect_spec_witness :
    (∀ e ∈ [("ABCD", roomVotingEx)],
      ∀ q ∈ (e : String × Room).2.players, q.id ≠ "") ∧
    (reconnectHandler [("ABCD", roomVotingEx)] "p3" "abcd").isSome = true := by
  refine ⟨by decide, ?_⟩
  exact (reconnect_spec [("ABCD", roomVotingEx)] "p3" "abcd"
    (by decide)).1.mpr
    ⟨by decide, roomVotingEx, by decide,
      ⟨"p3", "Carol", false, false⟩, by decide⟩

/-! ### C10: play-again payload trust -/

theorem jsOr_some_ne (s : String) (o : Option String) (h : s ≠ "") :
    jsOr (some s) o = some s := by
  show (if s = "" then o else some s) = some s
  rw [if_neg h]

/-- C10: the requestPlayAgain handler reads the room code and player id
from the payload whenever those payload fields are non-empty, consulting
the connection's bound identity only as a fallback: for a payload
carrying both fields the outcome is identical for any two connections,
and any connection whatsoever that supplies the host's player id together
with the valid code of an ended room triggers the full room reset, even
if the identity bound to that connection is not the host. -/
theorem requestPlayAgain_payload_spec (rooms : List (String × Room))
    (payloadCode payloadPid : String)
    (hc : payloadCode ≠ "") (hp : payloadPid ≠ "") :
    (∀ sp1 sc1 sp2 sc2,
      requestPlayAgainHandler rooms sp1 sc1
        (some payloadCode) (some payloadPid) =
      requestPlayAgainHandler rooms sp2 sc2
        (some payloadCode) (some payloadPid))
    ∧ (∀ room, isValidRoomCode payloadCode = true →
        List.lookup payloadCode rooms = some room →
        room.hostId = payloadPid →
        room.phase = Phase.ended →
        ∀ sp sc, requestPlayAgainHandler rooms sp sc
          (some payloadCode) (some payloadPid)
          = (updateRoomAt rooms payloadCode (resetRoomForPlayAgain room),
            true)) := by
  constructor
  · intro sp1 sc1 sp2 sc2
    rw [requestPlayAgainHandler, requestPlayAgainHandler]
    rw [jsOr_some_ne payloadCode sc1 hc, jsOr_some_ne payloadCode sc2 hc]
    rw [jsOr_some_ne payloadPid sp1 hp, jsOr_some_ne payloadPid sp2 hp]
  · intro room hv hl hhost hph sp sc
    rw [requestPlayAgainHandler]
    rw [jsOr_some_ne payloadCode sc hc, jsOr_some_ne payloadPid sp hp]
    show (if (!isValidRoomCode payloadCode) = true then (rooms, false)
      else match List.lookup payloadCode rooms with
        | none => (rooms, false)
        | some room =>
          match (some payloadPid : Option String) with
          | none => (rooms, false)
          | some p =>
            if p = "" then (rooms, false)
            else if room.hostId ≠ p then (rooms, false)
            else if room.phase ≠ Phase.ended then (rooms, false)
            else (updateRoomAt rooms payloadCode (resetRoomForPlayAgain room),
              true)) = _
    rw [if_neg (by rw [hv]; exact (by decide : ¬((!true) = true)))]
    rw [hl]
    show (if payloadPid = "" then (rooms, false)
      else if room.hostId ≠ payloadPid then (rooms, false)
      else if room.phase ≠ Phase.ended then (rooms, false)
      else (updateRoomAt rooms payloadCode (resetRoomForPlayAgain room),
        true)) = _
    rw [if_neg hp, if_neg (not_not_intro hhost), if_neg (not_not_intro hph)]

theorem requestPlayAgain_payload_spec_witness :
    ("ABCD" : String) ≠ "" ∧ ("p1" : String) ≠ "" ∧
    requestPlayAgainHandler [("ABCD", roomEndedEx)] (some "intruder") none
        (some "ABCD") (some "p1")
      = (updateRoomAt [("ABCD", roomEndedEx)] "ABCD"
          (resetRoomForPlayAgain roomEndedEx), true) := by
  refine ⟨by decide, by decide, ?_⟩
  exact (requestPlayAgain_payload_spec [("ABCD", roomEndedEx)] "ABCD" "p1"
    (by decide) (by decide)).2 roomEndedEx (by decide) (by decide) rfl rfl
    (some "intruder") none
